import Mathlib

/-!
# vecplay: SAXPY and dot-product kernels and their benchmark driver

A shallow embedding of `src/src/kernels.cpp` and `src/src/bench.cpp`.

* `float` is an arbitrary type `α` carrying `+`, `*` and `0`; no algebraic law is assumed
  unless a theorem asks for one, so a theorem stated for every `α` also holds for IEEE
  single precision.
* A buffer (`float *` together with the number of elements behind it) is a `List α`.
  A load or store outside the buffer has no defined result: it is `none`. The two buffers
  of a kernel are separate lists, as the two `std::vector`s of the driver are; `x` is
  `const float *` and no kernel has a store to it.
* `std::size_t` values are natural numbers (below `2 ^ 64` where a theorem needs the bound).
  Every loop is a recursive function that tests the loop condition of the source and carries a
  fuel argument bounding the number of tests; running out of fuel is `none` as well, and the
  theorems show that it does not happen.
* The `int` counter of the timed loop of `run_benchmark` is an integer kept in the 32-bit
  two's complement range, converted modulo `2 ^ 64` for the comparison with the `std::size_t`
  iteration count.
* The build-time switch `VECPLAY_HAS_NEON` is a Boolean parameter; the random engine, the
  distribution and the measured time of `run_benchmark` are parameters as well.
-/

namespace vecplay

/-- The `enum class KernelKind` of `kernels.hpp`. -/
inductive KernelKind where
  | Saxpy
  | Dot
  deriving DecidableEq

/-- The `enum class VariantKind` of `kernels.hpp`. -/
inductive VariantKind where
  | Scalar
  | Auto
  | Manual
  deriving DecidableEq

/-- `parseKernel` of `kernels.cpp`; the thrown `std::runtime_error` is the `error` case. -/
def parseKernel (name : String) : Except String KernelKind :=
  if name = "saxpy" then .ok KernelKind.Saxpy
  else if name = "dot" then .ok KernelKind.Dot
  else .error ("Unknown kernel name: " ++ name)

/-- `parseVariant` of `kernels.cpp`; the thrown `std::runtime_error` is the `error` case. -/
def parseVariant (name : String) : Except String VariantKind :=
  if name = "scalar" then .ok VariantKind.Scalar
  else if name = "auto" then .ok VariantKind.Auto
  else if name = "manual" then .ok VariantKind.Manual
  else .error ("Unknown variant name: " ++ name)

section Kernels

variable {α : Type} [Add α] [Mul α] [Zero α]

/-- The read `p[i]` of a buffer. -/
def load (p : List α) (i : Nat) : Option α := p[i]?

/-- The write `p[i] = v` to a buffer. -/
def store (p : List α) (i : Nat) (v : α) : Option (List α) :=
  if i < p.length then some (p.set i v) else none

/-! ### The NEON intrinsics used by the manual kernels (lane-wise, as documented by ACLE) -/

/-- Four lanes of `float`. -/
structure float32x4_t (α : Type) where
  lane0 : α
  lane1 : α
  lane2 : α
  lane3 : α
  deriving DecidableEq

/-- Two lanes of `float`. -/
structure float32x2_t (α : Type) where
  lane0 : α
  lane1 : α
  deriving DecidableEq

/-- Intrinsic `vdupq_n_f32`: all four lanes hold `v`. -/
def vdupq_n_f32 (v : α) : float32x4_t α := ⟨v, v, v, v⟩

/-- Intrinsic `vld1q_f32(&p[base])`: loads `p[base], ..., p[base + 3]`. -/
def vld1q_f32 (p : List α) (base : Nat) : Option (float32x4_t α) := do
  let v0 ← load p base
  let v1 ← load p (base + 1)
  let v2 ← load p (base + 2)
  let v3 ← load p (base + 3)
  pure ⟨v0, v1, v2, v3⟩

/-- Intrinsic `vst1q_f32(&p[base], v)`: stores the four lanes to `p[base], ..., p[base + 3]`. -/
def vst1q_f32 (p : List α) (base : Nat) (v : float32x4_t α) : Option (List α) := do
  let p0 ← store p base v.lane0
  let p1 ← store p0 (base + 1) v.lane1
  let p2 ← store p1 (base + 2) v.lane2
  store p2 (base + 3) v.lane3

/-- Intrinsic `vmlaq_f32(a, b, c)`: lane-wise `a[k] + b[k] * c[k]`. -/
def vmlaq_f32 (a b c : float32x4_t α) : float32x4_t α :=
  ⟨a.lane0 + b.lane0 * c.lane0, a.lane1 + b.lane1 * c.lane1,
   a.lane2 + b.lane2 * c.lane2, a.lane3 + b.lane3 * c.lane3⟩

/-- Intrinsic `vmulq_f32(a, b)`: lane-wise product. -/
def vmulq_f32 (a b : float32x4_t α) : float32x4_t α :=
  ⟨a.lane0 * b.lane0, a.lane1 * b.lane1, a.lane2 * b.lane2, a.lane3 * b.lane3⟩

/-- Intrinsic `vaddq_f32(a, b)`: lane-wise sum. -/
def vaddq_f32 (a b : float32x4_t α) : float32x4_t α :=
  ⟨a.lane0 + b.lane0, a.lane1 + b.lane1, a.lane2 + b.lane2, a.lane3 + b.lane3⟩

/-- Intrinsic `vget_low_f32`: lanes 0 and 1. -/
def vget_low_f32 (v : float32x4_t α) : float32x2_t α := ⟨v.lane0, v.lane1⟩

/-- Intrinsic `vget_high_f32`: lanes 2 and 3. -/
def vget_high_f32 (v : float32x4_t α) : float32x2_t α := ⟨v.lane2, v.lane3⟩

/-- Intrinsic `vadd_f32(a, b)`: lane-wise sum of two-lane vectors. -/
def vadd_f32 (a b : float32x2_t α) : float32x2_t α :=
  ⟨a.lane0 + b.lane0, a.lane1 + b.lane1⟩

/-- Intrinsic `vget_lane_f32(v, lane)` for the lane numbers 0 and 1 used by the source. -/
def vget_lane_f32 (v : float32x2_t α) (lane : Nat) : α :=
  if lane = 0 then v.lane0 else v.lane1

/-! ### SAXPY -/

/-- The loop `for (; i < n; ++i) y[i] = a * x[i] + y[i];` of `saxpy_scalar`. -/
def saxpy_scalar_loop (x : List α) (a : α) (n : Nat) : Nat → Nat → List α → Option (List α)
  | 0, _, _ => none
  | fuel + 1, i, y =>
    if i < n then do
      let xi ← load x i
      let yi ← load y i
      let y' ← store y i (a * xi + yi)
      saxpy_scalar_loop x a n fuel (i + 1) y'
    else some y

/-- `saxpy_scalar` of `kernels.cpp`: the new contents of `y`. -/
def saxpy_scalar (y x : List α) (a : α) (n : Nat) : Option (List α) :=
  saxpy_scalar_loop x a n (n + 1) 0 y

/-- The loop of `saxpy_auto` (the same statement under `vectorize(enable)`). -/
def saxpy_auto_loop (x : List α) (a : α) (n : Nat) : Nat → Nat → List α → Option (List α)
  | 0, _, _ => none
  | fuel + 1, i, y =>
    if i < n then do
      let xi ← load x i
      let yi ← load y i
      let y' ← store y i (a * xi + yi)
      saxpy_auto_loop x a n fuel (i + 1) y'
    else some y

/-- `saxpy_auto` of `kernels.cpp`. -/
def saxpy_auto (y x : List α) (a : α) (n : Nat) : Option (List α) :=
  saxpy_auto_loop x a n (n + 1) 0 y

/-- The inner loop `for (int u = 0; u < UNROLL; ++u)` of `saxpy_manual_impl`: one 4-lane
load of `x` and of `y`, a multiply-accumulate and a 4-lane store at `base = i + u * 4`. -/
def saxpy_manual_impl_unroll (x : List α) (a_vec : float32x4_t α) (UNROLL vec_width i : Nat) :
    Nat → Nat → List α → Option (List α)
  | 0, _, _ => none
  | fuel + 1, u, y =>
    if u < UNROLL then do
      let base := i + u * vec_width
      let x_vec ← vld1q_f32 x base
      let y_vec ← vld1q_f32 y base
      let y_vec := vmlaq_f32 y_vec x_vec a_vec
      let y' ← vst1q_f32 y base y_vec
      saxpy_manual_impl_unroll x a_vec UNROLL vec_width i fuel (u + 1) y'
    else some y

/-- The main loop `for (; i < limit; i += step_elems)` of `saxpy_manual_impl`; it returns
the final value of `i` with the buffer. -/
def saxpy_manual_impl_main (x : List α) (a_vec : float32x4_t α)
    (UNROLL vec_width step_elems limit : Nat) : Nat → Nat → List α → Option (Nat × List α)
  | 0, _, _ => none
  | fuel + 1, i, y =>
    if i < limit then do
      let y' ← saxpy_manual_impl_unroll x a_vec UNROLL vec_width i (UNROLL + 1) 0 y
      saxpy_manual_impl_main x a_vec UNROLL vec_width step_elems limit fuel (i + step_elems) y'
    else some (i, y)

/-- The cleanup loop `for (; i < n; ++i) y[i] = a * x[i] + y[i];` of `saxpy_manual_impl`. -/
def saxpy_manual_impl_cleanup (x : List α) (a : α) (n : Nat) :
    Nat → Nat → List α → Option (List α)
  | 0, _, _ => none
  | fuel + 1, i, y =>
    if i < n then do
      let xi ← load x i
      let yi ← load y i
      let y' ← store y i (a * xi + yi)
      saxpy_manual_impl_cleanup x a n fuel (i + 1) y'
    else some y

/-- The template `saxpy_manual_impl<UNROLL>` of `kernels.cpp` (instantiated by the source
for `UNROLL` 1, 2, 4 and 8 only; `static_assert(UNROLL >= 1)`). The template stands in an
unnamed namespace at global scope, before `namespace vecplay` is opened. Its branch for the
build without NEON is the unqualified call `saxpy_scalar(y, x, a, n)`: the only declaration of
that name is `vecplay::saxpy_scalar`, which unqualified lookup from the global scope does not
find (and the arguments, of fundamental types, bring in no namespace). The call names no
function, so this branch has no result: `none`. -/
def saxpy_manual_impl (VECPLAY_HAS_NEON : Bool) (UNROLL : Nat) (y x : List α) (a : α)
    (n : Nat) : Option (List α) :=
  if VECPLAY_HAS_NEON then do
    let i := 0
    let a_vec := vdupq_n_f32 a
    let vec_width := 4
    let step_elems := UNROLL * vec_width
    let limit := n / step_elems * step_elems
    let (i, y) ← saxpy_manual_impl_main x a_vec UNROLL vec_width step_elems limit (n + 1) i y
    saxpy_manual_impl_cleanup x a n (n + 1) i y
  else none

/-- `saxpy_manual_unrolled` of `kernels.cpp`: the `switch` on the `int unroll_factor`; without
NEON, a call of `saxpy_scalar` from inside `namespace vecplay`. -/
def saxpy_manual_unrolled (VECPLAY_HAS_NEON : Bool) (y x : List α) (a : α) (n : Nat)
    (unroll_factor : Int) : Option (List α) :=
  if VECPLAY_HAS_NEON then
    if unroll_factor = 1 then saxpy_manual_impl VECPLAY_HAS_NEON 1 y x a n
    else if unroll_factor = 2 then saxpy_manual_impl VECPLAY_HAS_NEON 2 y x a n
    else if unroll_factor = 4 then saxpy_manual_impl VECPLAY_HAS_NEON 4 y x a n
    else if unroll_factor = 8 then saxpy_manual_impl VECPLAY_HAS_NEON 8 y x a n
    else saxpy_manual_impl VECPLAY_HAS_NEON 2 y x a n
  else saxpy_scalar y x a n

/-- `saxpy_manual` of `kernels.cpp`: unroll factor 2. -/
def saxpy_manual (VECPLAY_HAS_NEON : Bool) (y x : List α) (a : α) (n : Nat) :
    Option (List α) :=
  saxpy_manual_unrolled VECPLAY_HAS_NEON y x a n 2

/-! ### Dot product -/

/-- The loop `for (; i < n; ++i) result += x[i] * y[i];` of `dot_scalar`. -/
def dot_scalar_loop (x y : List α) (n : Nat) : Nat → Nat → α → Option α
  | 0, _, _ => none
  | fuel + 1, i, result =>
    if i < n then do
      let xi ← load x i
      let yi ← load y i
      dot_scalar_loop x y n fuel (i + 1) (result + xi * yi)
    else some result

/-- `dot_scalar` of `kernels.cpp`. -/
def dot_scalar (x y : List α) (n : Nat) : Option α :=
  dot_scalar_loop x y n (n + 1) 0 0

/-- The loop of `dot_auto` (the same statement under `vectorize(enable)`). -/
def dot_auto_loop (x y : List α) (n : Nat) : Nat → Nat → α → Option α
  | 0, _, _ => none
  | fuel + 1, i, result =>
    if i < n then do
      let xi ← load x i
      let yi ← load y i
      dot_auto_loop x y n fuel (i + 1) (result + xi * yi)
    else some result

/-- `dot_auto` of `kernels.cpp`. -/
def dot_auto (x y : List α) (n : Nat) : Option α :=
  dot_auto_loop x y n (n + 1) 0 0

/-- The main loop `for (; i < n_vec; i += step)` of `dot_manual`; it returns the final value
of `i` with the vector accumulator. -/
def dot_manual_main (x y : List α) (step n_vec : Nat) :
    Nat → Nat → float32x4_t α → Option (Nat × float32x4_t α)
  | 0, _, _ => none
  | fuel + 1, i, sum_vec =>
    if i < n_vec then do
      let x_vec ← vld1q_f32 x i
      let y_vec ← vld1q_f32 y i
      let prod_vec := vmulq_f32 x_vec y_vec
      dot_manual_main x y step n_vec fuel (i + step) (vaddq_f32 sum_vec prod_vec)
    else some (i, sum_vec)

/-- The cleanup loop `for (; i < n; ++i) acc += x[i] * y[i];` of `dot_manual`. -/
def dot_manual_cleanup (x y : List α) (n : Nat) : Nat → Nat → α → Option α
  | 0, _, _ => none
  | fuel + 1, i, acc =>
    if i < n then do
      let xi ← load x i
      let yi ← load y i
      dot_manual_cleanup x y n fuel (i + 1) (acc + xi * yi)
    else some acc

/-- `dot_manual` of `kernels.cpp`. -/
def dot_manual (VECPLAY_HAS_NEON : Bool) (x y : List α) (n : Nat) : Option α :=
  if VECPLAY_HAS_NEON then do
    let i := 0
    let step := 4
    let sum_vec := vdupq_n_f32 (0 : α)
    let n_vec := n - n % step
    let (i, sum_vec) ← dot_manual_main x y step n_vec (n + 1) i sum_vec
    let sum_low := vget_low_f32 sum_vec
    let sum_high := vget_high_f32 sum_vec
    let pair_sum := vadd_f32 sum_low sum_high
    let acc := vget_lane_f32 pair_sum 0 + vget_lane_f32 pair_sum 1
    dot_manual_cleanup x y n (n + 1) i acc
  else dot_scalar x y n

end Kernels

/-! ### The benchmark driver (`bench.cpp`) -/

/-- `BenchConfig` of `bench.hpp`; `n` and `iterations` are `std::size_t`, `unroll_factor`
is `int`. -/
structure BenchConfig where
  kernel : KernelKind
  variant : VariantKind
  n : Nat
  iterations : Nat
  csv : Bool
  unroll_factor : Int

/-- `BenchResult` of `bench.hpp`; `α` stands for `float`, `β` for `double`. -/
structure BenchResult (α β : Type) where
  time_seconds : β
  checksum : α
  gflops_per_sec : β

/-- The random source of `run_benchmark`. `std::mt19937` and
`std::uniform_real_distribution<float>` are library code, so they are parameters:
`mt19937 seed` is the engine constructed from a seed and `dist rng` is one call `dist(rng)`,
giving the value drawn and the engine state after the call. -/
structure RandomSource (α : Type) where
  Engine : Type
  mt19937 : Nat → Engine
  dist : Engine → α × Engine

/-- An `int` result brought into the 32-bit two's complement range (what `++iter` leaves in
`iter`; past `INT_MAX` the C++ standard leaves the behaviour undefined, the embedding wraps). -/
def int_wrap (v : Int) : Int := (v + 2147483648) % 4294967296 - 2147483648

/-- The conversion of an `int` to `std::size_t` made by the comparison
`iter < config.iterations`: the value modulo `2 ^ 64`. -/
def int_to_size_t (v : Int) : Nat := (v % 18446744073709551616).toNat

section Driver

variable {α β : Type} [Add α] [Mul α] [Zero α] [OfScientific α]
variable [Mul β] [Div β] [NatCast β] [OfScientific β]

/-- The fill loop `for (i = 0; i < config.n; ++i) { x[i] = dist(rng); y[i] = dist(rng); }`. -/
def run_benchmark_fill (src : RandomSource α) (n : Nat) :
    Nat → Nat → src.Engine → List α → List α → Option (List α × List α)
  | 0, _, _, _, _ => none
  | fuel + 1, i, rng, x, y =>
    if i < n then do
      let (v, rng) := src.dist rng
      let x' ← store x i v
      let (w, rng) := src.dist rng
      let y' ← store y i w
      run_benchmark_fill src n fuel (i + 1) rng x' y'
    else some (x, y)

/-- The body of the timed loop of `run_benchmark`: the two nested `switch` statements, acting
on the buffer `y` and on the local `checksum`. The `default:` arms, which throw, cannot be
reached from a value of the two enumerations. -/
def run_benchmark_dispatch (VECPLAY_HAS_NEON : Bool) (config : BenchConfig) (x : List α)
    (alpha : α) (state : List α × α) : Option (List α × α) :=
  match config.kernel with
  | KernelKind.Saxpy =>
    match config.variant with
    | VariantKind.Scalar => do
      let y' ← saxpy_scalar state.1 x alpha config.n
      pure (y', state.2)
    | VariantKind.Auto => do
      let y' ← saxpy_auto state.1 x alpha config.n
      pure (y', state.2)
    | VariantKind.Manual => do
      let y' ← saxpy_manual_unrolled VECPLAY_HAS_NEON state.1 x alpha config.n
        config.unroll_factor
      pure (y', state.2)
  | KernelKind.Dot =>
    match config.variant with
    | VariantKind.Scalar => do
      let checksum ← dot_scalar x state.1 config.n
      pure (state.1, checksum)
    | VariantKind.Auto => do
      let checksum ← dot_auto x state.1 config.n
      pure (state.1, checksum)
    | VariantKind.Manual => do
      let checksum ← dot_manual VECPLAY_HAS_NEON x state.1 config.n
      pure (state.1, checksum)

/-- The timed loop `for (int iter = 0; iter < config.iterations; ++iter)` of `run_benchmark`:
the counter is an `int`, converted to `std::size_t` for the comparison. -/
def run_benchmark_loop (VECPLAY_HAS_NEON : Bool) (config : BenchConfig) (x : List α)
    (alpha : α) : Nat → Int → List α × α → Option (List α × α)
  | 0, _, _ => none
  | fuel + 1, iter, state =>
    if int_to_size_t iter < config.iterations then do
      let state' ← run_benchmark_dispatch VECPLAY_HAS_NEON config x alpha state
      run_benchmark_loop VECPLAY_HAS_NEON config x alpha fuel (int_wrap (iter + 1)) state'
    else some state

/-- `run_benchmark` of `bench.cpp`. The elapsed time read from the clock is the parameter
`time_seconds`. The fuel of the timed loop allows `config.iterations` passes and the exit
test. -/
def run_benchmark (VECPLAY_HAS_NEON : Bool) (src : RandomSource α) (time_seconds : β)
    (config : BenchConfig) : Option (BenchResult α β) := do
  let x := List.replicate config.n (0 : α)
  let y := List.replicate config.n (0 : α)
  let rng := src.mt19937 42
  let (x, y) ← run_benchmark_fill src config.n (config.n + 1) 0 rng x y
  let alpha : α := 1.25
  let checksum : α := 0
  let (y, checksum) ←
    run_benchmark_loop VECPLAY_HAS_NEON config x alpha (config.iterations + 1) 0 (y, checksum)
  let flops_per_iter : β := 2.0 * (config.n : β)
  let total_flops : β := flops_per_iter * (config.iterations : β)
  let gflops : β := total_flops / (time_seconds * 1e9)
  let checksum := if config.kernel = KernelKind.Saxpy then y.foldl (fun c val => c + val) 0
    else checksum
  pure ⟨time_seconds, checksum, gflops⟩

end Driver

/-! ### Reference values used to state the kernels' results -/

section Reference

variable {α : Type} [Add α] [Mul α] [Zero α]

/-- The value `a * x[j] + y[j]` when both reads are inside the buffers. -/
def saxpy_elem (a : α) (x y : List α) (j : Nat) : Option α :=
  (x[j]?).bind fun xj => (y[j]?).map fun yj => a * xj + yj

/-- The value `y[j] + x[j] * a` of one lane of `vmlaq_f32(y_vec, x_vec, a_vec)` when both
reads are inside the buffers. -/
def saxpy_elem_vec (a : α) (x y : List α) (j : Nat) : Option α :=
  (x[j]?).bind fun xj => (y[j]?).map fun yj => yj + xj * a

/-- The buffer `p` with the four lanes of `v` written at `base, ..., base + 3`. -/
def write4 (p : List α) (base : Nat) (v : float32x4_t α) : List α :=
  (((p.set base v.lane0).set (base + 1) v.lane1).set (base + 2) v.lane2).set (base + 3) v.lane3

/-- The outcome of `k` runs of `step` in succession, each on what the previous run left. -/
def successive {σ : Type} (step : σ → Option σ) : Nat → σ → Option σ
  | 0, s => some s
  | k + 1, s => (successive step k s).bind step

/-- The number of passes of the timed loop of `run_benchmark` for a given `config.iterations`
(a value below `2 ^ 64`): the `int` counter runs `0, ..., 2 ^ 31 - 1`, then
`-2 ^ 31, ..., -1`, which the comparison reads as `2 ^ 64 - 2 ^ 31, ..., 2 ^ 64 - 1`. -/
def trip_count (iterations : Nat) : Nat :=
  if iterations ≤ 2147483648 then iterations
  else if iterations ≤ 18446744071562067968 then 2147483648
  else iterations - 18446744069414584320

/-- The buffers `x`, `y` as `run_benchmark` generates them for `config.n = n`: both are
allocated with `n` zeros and filled by the fill loop from the engine seeded with 42. -/
def generated_buffers (src : RandomSource α) (n : Nat) : Option (List α × List α) :=
  run_benchmark_fill src n (n + 1) 0 (src.mt19937 42) (List.replicate n 0) (List.replicate n 0)

/-- The SAXPY kernel that the dispatch of `run_benchmark` selects for a variant. -/
def saxpy_variant (VECPLAY_HAS_NEON : Bool) (variant : VariantKind) (unroll_factor : Int)
    (y x : List α) (a : α) (n : Nat) : Option (List α) :=
  match variant with
  | VariantKind.Scalar => saxpy_scalar y x a n
  | VariantKind.Auto => saxpy_auto y x a n
  | VariantKind.Manual => saxpy_manual_unrolled VECPLAY_HAS_NEON y x a n unroll_factor

/-- The dot-product kernel that the dispatch of `run_benchmark` selects for a variant. -/
def dot_variant (VECPLAY_HAS_NEON : Bool) (variant : VariantKind) (x y : List α) (n : Nat) :
    Option α :=
  match variant with
  | VariantKind.Scalar => dot_scalar x y n
  | VariantKind.Auto => dot_auto x y n
  | VariantKind.Manual => dot_manual VECPLAY_HAS_NEON x y n

/-- The engine of `run_benchmark` after `k` calls `dist(rng)`, starting from the seed 42. -/
def engine_after (src : RandomSource α) : Nat → src.Engine
  | 0 => src.mt19937 42
  | k + 1 => (src.dist (engine_after src k)).2

/-- Sample `k` (counted from 0) of the stream of `run_benchmark`: the value returned by call
`k` of `dist(rng)`. -/
def sample (src : RandomSource α) (k : Nat) : α := (src.dist (engine_after src k)).1

/-- The products `x[i] * y[i]` of the indices `i < m` with `i mod 4 = j`, in index order. -/
def lane_products [Mul α] (x y : List α) (m j : Nat) : List α :=
  ((List.range m).filter (fun i => i % 4 = j)).filterMap
    (fun i => (List.zipWith (fun u v => u * v) x y)[i]?)

/-- The left-to-right sum, starting from `0`, of the products of lane `j` below `m`. -/
def lane_sum [Add α] [Mul α] [Zero α] (x y : List α) (m j : Nat) : α :=
  (lane_products x y m j).foldl (fun s p => s + p) 0

end Reference

/-- A small deterministic random source for concrete evaluations over the rationals: the
engine state is a counter started at the seed, and a draw returns `(state mod 5) / 4`. -/
def counter_source : RandomSource ℚ :=
  ⟨Nat, fun seed => seed, fun k => (((k % 5 : Nat) : ℚ) / 4, k + 1)⟩

section KernelTheorems

variable {α : Type}

theorem load_of_lt {p : List α} {i : Nat} (h : i < p.length) : load p i = some p[i] := by
  simp [load, h]

theorem store_of_lt {p : List α} {i : Nat} (v : α) (h : i < p.length) :
    store p i v = some (p.set i v) := by
  simp [store, h]

theorem saxpy_elem_of_lt [Add α] [Mul α] (a : α) {x y : List α} {j : Nat} (hx : j < x.length)
    (hy : j < y.length) : saxpy_elem a x y j = some (a * x[j] + y[j]) := by
  simp [saxpy_elem, hx, hy]

/-- Invariant of the scalar SAXPY loop started at `i`: the indices `i ≤ j < n` are updated,
every other index is left alone. -/
theorem saxpy_scalar_loop_spec [Add α] [Mul α] (x : List α) (a : α) (n : Nat) (hx : n ≤ x.length) :
    ∀ (fuel i : Nat) (y : List α), n ≤ y.length → n - i < fuel →
      ∃ y', saxpy_scalar_loop x a n fuel i y = some y' ∧ y'.length = y.length ∧
        ∀ j, y'[j]? = if i ≤ j ∧ j < n then saxpy_elem a x y j else y[j]? := by
  intro fuel
  induction fuel with
  | zero => intro i y _ h; omega
  | succ fuel ih =>
    intro i y hy hfuel
    by_cases hin : i < n
    · have hxi : i < x.length := by omega
      have hyi : i < y.length := by omega
      obtain ⟨y', hrun, hlen, hval⟩ :=
        ih (i + 1) (y.set i (a * x[i] + y[i])) (by simpa using hy) (by omega)
      refine ⟨y', ?_, by simpa using hlen, ?_⟩
      · simp [saxpy_scalar_loop, hin, load_of_lt hxi, load_of_lt hyi, store_of_lt _ hyi, hrun]
      · intro j
        rw [hval j]
        by_cases hji : j = i
        · subst hji
          have h1 : ¬ (j + 1 ≤ j ∧ j < n) := by omega
          have h2 : j ≤ j ∧ j < n := by omega
          simp [h1, h2, saxpy_elem_of_lt a hxi hyi, hyi]
        · have hne : i ≠ j := fun h => hji h.symm
          by_cases hc : i ≤ j ∧ j < n
          · have hc' : i + 1 ≤ j ∧ j < n := by omega
            simp [hc, hc', saxpy_elem, List.getElem?_set_ne hne]
          · have hc' : ¬ (i + 1 ≤ j ∧ j < n) := by omega
            simp [hc, hc', List.getElem?_set_ne hne]
    · refine ⟨y, ?_, rfl, ?_⟩
      · simp [saxpy_scalar_loop, hin]
      · intro j
        have hc : ¬ (i ≤ j ∧ j < n) := by omega
        simp [hc]

theorem saxpy_scalar_spec [Add α] [Mul α] (y x : List α) (a : α) (n : Nat)
    (hx : n ≤ x.length) (hy : n ≤ y.length) :
    ∃ y', saxpy_scalar y x a n = some y' ∧ y'.length = y.length ∧
      ∀ j, y'[j]? = if j < n then saxpy_elem a x y j else y[j]? := by
  obtain ⟨y', hrun, hlen, hval⟩ := saxpy_scalar_loop_spec x a n hx (n + 1) 0 y hy (by omega)
  exact ⟨y', hrun, hlen, fun j => by simpa using hval j⟩

theorem saxpy_auto_loop_eq [Add α] [Mul α] (x : List α) (a : α) (n : Nat) :
    ∀ (fuel i : Nat) (y : List α),
      saxpy_auto_loop x a n fuel i y = saxpy_scalar_loop x a n fuel i y := by
  intro fuel
  induction fuel with
  | zero => intro i y; rfl
  | succ fuel ih => intro i y; simp only [saxpy_auto_loop, saxpy_scalar_loop, ih]

theorem saxpy_manual_impl_cleanup_eq [Add α] [Mul α] (x : List α) (a : α) (n : Nat) :
    ∀ (fuel i : Nat) (y : List α),
      saxpy_manual_impl_cleanup x a n fuel i y = saxpy_scalar_loop x a n fuel i y := by
  intro fuel
  induction fuel with
  | zero => intro i y; rfl
  | succ fuel ih => intro i y; simp only [saxpy_manual_impl_cleanup, saxpy_scalar_loop, ih]

/-- Invariant of the scalar dot-product loop started at `i` with accumulator `acc`: the
products of the indices `i ≤ j < n` are added to `acc` one by one in index order. -/
theorem dot_scalar_loop_spec [Add α] [Mul α] (x y : List α) (n : Nat) (hx : n ≤ x.length)
    (hy : n ≤ y.length) :
    ∀ (fuel i : Nat) (acc : α), n - i < fuel →
      dot_scalar_loop x y n fuel i acc =
        some ((((List.zipWith (fun u v => u * v) x y).take n).drop i).foldl
          (fun s p => s + p) acc) := by
  intro fuel
  induction fuel with
  | zero => intro i acc h; omega
  | succ fuel ih =>
    intro i acc hfuel
    by_cases hin : i < n
    · have hxi : i < x.length := by omega
      have hyi : i < y.length := by omega
      have hlen : i < ((List.zipWith (fun u v => u * v) x y).take n).length := by
        simp; omega
      rw [List.drop_eq_getElem_cons hlen]
      simp [dot_scalar_loop, hin, load_of_lt hxi, load_of_lt hyi, ih (i + 1) _ (by omega)]
    · have hdrop : ((List.zipWith (fun u v => u * v) x y).take n).drop i = [] := by
        apply List.drop_eq_nil_of_le
        simp; omega
      simp [dot_scalar_loop, hin, hdrop]

theorem dot_auto_loop_eq [Add α] [Mul α] (x y : List α) (n : Nat) :
    ∀ (fuel i : Nat) (acc : α),
      dot_auto_loop x y n fuel i acc = dot_scalar_loop x y n fuel i acc := by
  intro fuel
  induction fuel with
  | zero => intro i acc; rfl
  | succ fuel ih => intro i acc; simp only [dot_auto_loop, dot_scalar_loop, ih]

theorem dot_manual_cleanup_eq [Add α] [Mul α] (x y : List α) (n : Nat) :
    ∀ (fuel i : Nat) (acc : α),
      dot_manual_cleanup x y n fuel i acc = dot_scalar_loop x y n fuel i acc := by
  intro fuel
  induction fuel with
  | zero => intro i acc; rfl
  | succ fuel ih => intro i acc; simp only [dot_manual_cleanup, dot_scalar_loop, ih]

theorem dot_scalar_spec [Add α] [Mul α] [Zero α] (x y : List α) (n : Nat)
    (hx : n ≤ x.length) (hy : n ≤ y.length) :
    dot_scalar x y n =
      some (((List.zipWith (fun u v => u * v) x y).take n).foldl (fun s p => s + p) 0) := by
  simpa using dot_scalar_loop_spec x y n hx hy (n + 1) 0 0 (by omega)

theorem vld1q_f32_of_lt {p : List α} {base : Nat} (h : base + 3 < p.length) :
    vld1q_f32 p base = some ⟨p[base], p[base + 1], p[base + 2], p[base + 3]⟩ := by
  have h0 : base < p.length := by omega
  have h1 : base + 1 < p.length := by omega
  have h2 : base + 2 < p.length := by omega
  simp [vld1q_f32, load_of_lt h0, load_of_lt h1, load_of_lt h2, load_of_lt h]

theorem vst1q_f32_of_lt {p : List α} {base : Nat} (v : float32x4_t α)
    (h : base + 3 < p.length) : vst1q_f32 p base v = some (write4 p base v) := by
  have h0 : base < p.length := by omega
  have h1 : base + 1 < (p.set base v.lane0).length := by simp; omega
  have h2 : base + 2 < ((p.set base v.lane0).set (base + 1) v.lane1).length := by
    simp; omega
  have h3 : base + 3 <
      (((p.set base v.lane0).set (base + 1) v.lane1).set (base + 2) v.lane2).length := by
    simp; omega
  simp [vst1q_f32, write4, store_of_lt _ h0, store_of_lt _ h1, store_of_lt _ h2,
    store_of_lt _ h3]

theorem length_write4 (p : List α) (base : Nat) (v : float32x4_t α) :
    (write4 p base v).length = p.length := by
  simp [write4]

theorem getElem?_write4_of_ne (p : List α) (base : Nat) (v : float32x4_t α) (j : Nat)
    (hj : ¬ (base ≤ j ∧ j < base + 4)) : (write4 p base v)[j]? = p[j]? := by
  have h0 : base ≠ j := by omega
  have h1 : base + 1 ≠ j := by omega
  have h2 : base + 2 ≠ j := by omega
  have h3 : base + 3 ≠ j := by omega
  simp [write4, List.getElem?_set_ne, h0, h1, h2, h3]

theorem getElem?_write4 (p : List α) (base : Nat) (v : float32x4_t α)
    (h : base + 3 < p.length) :
    (write4 p base v)[base]? = some v.lane0 ∧ (write4 p base v)[base + 1]? = some v.lane1 ∧
      (write4 p base v)[base + 2]? = some v.lane2 ∧
      (write4 p base v)[base + 3]? = some v.lane3 := by
  have h0 : base < p.length := by omega
  have h1 : base + 1 < p.length := by omega
  have h2 : base + 2 < p.length := by omega
  refine ⟨?_, ?_, ?_, ?_⟩ <;> simp [write4, List.getElem?_set, h0, h1, h2, h]

theorem saxpy_elem_vec_of_lt [Add α] [Mul α] (a : α) {x y : List α} {j : Nat}
    (hx : j < x.length) (hy : j < y.length) :
    saxpy_elem_vec a x y j = some (y[j] + x[j] * a) := by
  simp [saxpy_elem_vec, hx, hy]

/-- One pass of the body of the inner loop of `saxpy_manual_impl` at `base`. -/
theorem saxpy_manual_body_spec [Add α] [Mul α] (x y : List α) (a : α) (base : Nat)
    (hx : base + 3 < x.length) (hy : base + 3 < y.length) :
    ∃ y1, (do
        let x_vec ← vld1q_f32 x base
        let y_vec ← vld1q_f32 y base
        vst1q_f32 y base (vmlaq_f32 y_vec x_vec (vdupq_n_f32 a))) = some y1 ∧
      y1.length = y.length ∧
      ∀ j, y1[j]? = if base ≤ j ∧ j < base + 4 then saxpy_elem_vec a x y j else y[j]? := by
  refine ⟨write4 y base (vmlaq_f32 ⟨y[base], y[base + 1], y[base + 2], y[base + 3]⟩
    ⟨x[base], x[base + 1], x[base + 2], x[base + 3]⟩ (vdupq_n_f32 a)), ?_, ?_, ?_⟩
  · simp only [vld1q_f32_of_lt hx, vld1q_f32_of_lt hy, Option.some_bind, Option.bind_eq_bind]
    exact vst1q_f32_of_lt _ hy
  · exact length_write4 _ _ _
  · intro j
    by_cases hc : base ≤ j ∧ j < base + 4
    · have hj : j = base ∨ j = base + 1 ∨ j = base + 2 ∨ j = base + 3 := by omega
      obtain ⟨w0, w1, w2, w3⟩ := getElem?_write4 y base
        (vmlaq_f32 ⟨y[base], y[base + 1], y[base + 2], y[base + 3]⟩
          ⟨x[base], x[base + 1], x[base + 2], x[base + 3]⟩ (vdupq_n_f32 a)) hy
      rw [if_pos hc]
      rcases hj with rfl | rfl | rfl | rfl
      · rw [saxpy_elem_vec_of_lt a (by omega) (by omega), w0]; rfl
      · rw [saxpy_elem_vec_of_lt a (by omega) (by omega), w1]; rfl
      · rw [saxpy_elem_vec_of_lt a (by omega) (by omega), w2]; rfl
      · rw [saxpy_elem_vec_of_lt a (by omega) (by omega), w3]; rfl
    · rw [if_neg hc]
      exact getElem?_write4_of_ne _ _ _ _ hc

/-- Invariant of the inner loop of `saxpy_manual_impl` started at `u`: the lanes of the
chunks `u, ..., UNROLL - 1` of the block at `i` are updated. -/
theorem saxpy_manual_impl_unroll_spec [Add α] [Mul α] (x : List α) (a : α) (UNROLL i : Nat)
    (hx : i + UNROLL * 4 ≤ x.length) :
    ∀ (fuel u : Nat) (y : List α), i + UNROLL * 4 ≤ y.length → UNROLL - u < fuel →
      ∃ y', saxpy_manual_impl_unroll x (vdupq_n_f32 a) UNROLL 4 i fuel u y = some y' ∧
        y'.length = y.length ∧
        ∀ j, y'[j]? = if i + u * 4 ≤ j ∧ j < i + UNROLL * 4 then saxpy_elem_vec a x y j
          else y[j]? := by
  intro fuel
  induction fuel with
  | zero => intro u y _ h; omega
  | succ fuel ih =>
    intro u y hy hfuel
    by_cases hin : u < UNROLL
    · have hxb : i + u * 4 + 3 < x.length := by omega
      have hyb : i + u * 4 + 3 < y.length := by omega
      obtain ⟨y1, hbody, hlen1, hval1⟩ := saxpy_manual_body_spec x y a (i + u * 4) hxb hyb
      obtain ⟨y', hrun, hlen, hval⟩ := ih (u + 1) y1 (by omega) (by omega)
      refine ⟨y', ?_, by omega, ?_⟩
      · rw [saxpy_manual_impl_unroll, if_pos hin]
        simp only [vld1q_f32_of_lt hxb, vld1q_f32_of_lt hyb, Option.some_bind,
          Option.bind_eq_bind] at hbody ⊢
        rw [hbody]
        exact hrun
      · intro j
        rw [hval j]
        by_cases hc : i + (u + 1) * 4 ≤ j ∧ j < i + UNROLL * 4
        · have hc' : i + u * 4 ≤ j ∧ j < i + UNROLL * 4 := by omega
          have hb : ¬ (i + u * 4 ≤ j ∧ j < i + u * 4 + 4) := by omega
          have hj := hval1 j
          rw [if_neg hb] at hj
          rw [if_pos hc, if_pos hc']
          simp [saxpy_elem_vec, hj]
        · rw [if_neg hc, hval1 j]
          by_cases hb : i + u * 4 ≤ j ∧ j < i + u * 4 + 4
          · have hc' : i + u * 4 ≤ j ∧ j < i + UNROLL * 4 := by omega
            rw [if_pos hb, if_pos hc']
          · have hc' : ¬ (i + u * 4 ≤ j ∧ j < i + UNROLL * 4) := by omega
            rw [if_neg hb, if_neg hc']
    · refine ⟨y, ?_, rfl, ?_⟩
      · rw [saxpy_manual_impl_unroll, if_neg hin]
      · intro j
        have hc : ¬ (i + u * 4 ≤ j ∧ j < i + UNROLL * 4) := by omega
        rw [if_neg hc]

/-- Invariant of the main loop of `saxpy_manual_impl` started at `i`, a whole number of steps
below `limit`: it ends with `i = limit` and the indices `i ≤ j < limit` updated. -/
theorem saxpy_manual_impl_main_spec [Add α] [Mul α] (x : List α) (a : α) (UNROLL : Nat)
    (hU : 0 < UNROLL) (limit : Nat) (hx : limit ≤ x.length) :
    ∀ (fuel i : Nat) (y : List α), limit ≤ y.length →
      (∃ k, i + k * (UNROLL * 4) = limit) → limit - i < fuel →
      ∃ y', saxpy_manual_impl_main x (vdupq_n_f32 a) UNROLL 4 (UNROLL * 4) limit fuel i y =
          some (limit, y') ∧ y'.length = y.length ∧
        ∀ j, y'[j]? = if i ≤ j ∧ j < limit then saxpy_elem_vec a x y j else y[j]? := by
  intro fuel
  induction fuel with
  | zero => intro i y _ _ h; omega
  | succ fuel ih =>
    intro i y hy hk hfuel
    obtain ⟨k, hk⟩ := hk
    by_cases hin : i < limit
    · obtain ⟨k', rfl⟩ : ∃ k', k = k' + 1 := by
        cases k with
        | zero => simp at hk; omega
        | succ k' => exact ⟨k', rfl⟩
      rw [Nat.succ_mul] at hk
      have hstep : i + UNROLL * 4 ≤ limit := by
        have := Nat.zero_le (k' * (UNROLL * 4))
        omega
      obtain ⟨y1, hbody, hlen1, hval1⟩ :=
        saxpy_manual_impl_unroll_spec x a UNROLL i (by omega) (UNROLL + 1) 0 y (by omega)
          (by omega)
      obtain ⟨y', hrun, hlen, hval⟩ :=
        ih (i + UNROLL * 4) y1 (by omega) ⟨k', by omega⟩ (by omega)
      refine ⟨y', ?_, by omega, ?_⟩
      · rw [saxpy_manual_impl_main, if_pos hin]
        simp only [hbody, Option.some_bind, Option.bind_eq_bind]
        exact hrun
      · intro j
        rw [hval j]
        by_cases hc : i + UNROLL * 4 ≤ j ∧ j < limit
        · have hc' : i ≤ j ∧ j < limit := by omega
          have hb : ¬ (i + 0 * 4 ≤ j ∧ j < i + UNROLL * 4) := by omega
          have hj := hval1 j
          rw [if_neg hb] at hj
          rw [if_pos hc, if_pos hc']
          simp [saxpy_elem_vec, hj]
        · rw [if_neg hc, hval1 j]
          by_cases hb : i + 0 * 4 ≤ j ∧ j < i + UNROLL * 4
          · have hc' : i ≤ j ∧ j < limit := by omega
            rw [if_pos hb, if_pos hc']
          · have hc' : ¬ (i ≤ j ∧ j < limit) := by omega
            rw [if_neg hb, if_neg hc']
    · have hil : i = limit := by
        have := Nat.zero_le (k * (UNROLL * 4))
        omega
      refine ⟨y, ?_, rfl, ?_⟩
      · rw [saxpy_manual_impl_main, if_neg hin, hil]
      · intro j
        have hc : ¬ (i ≤ j ∧ j < limit) := by omega
        rw [if_neg hc]

/-- The result of `saxpy_manual_impl<UNROLL>` on the vector path: the indices below `limit`
hold the multiply-accumulate value, the indices from `limit` to `n - 1` the scalar value. -/
theorem saxpy_manual_impl_spec [Add α] [Mul α] (UNROLL : Nat) (hU : 0 < UNROLL)
    (y x : List α) (a : α) (n : Nat) (hx : n ≤ x.length) (hy : n ≤ y.length) :
    ∃ y', saxpy_manual_impl true UNROLL y x a n = some y' ∧ y'.length = y.length ∧
      ∀ j, y'[j]? =
        if j < n / (UNROLL * 4) * (UNROLL * 4) then saxpy_elem_vec a x y j
        else if j < n then saxpy_elem a x y j else y[j]? := by
  have hlim : n / (UNROLL * 4) * (UNROLL * 4) ≤ n := Nat.div_mul_le_self n (UNROLL * 4)
  generalize hl : n / (UNROLL * 4) * (UNROLL * 4) = limit at hlim
  obtain ⟨y1, hmain, hlen1, hval1⟩ :=
    saxpy_manual_impl_main_spec x a UNROLL hU limit (by omega) (n + 1) 0 y (by omega)
      ⟨n / (UNROLL * 4), by omega⟩ (by omega)
  obtain ⟨y', hrun, hlen, hval⟩ :=
    saxpy_scalar_loop_spec x a n hx (n + 1) limit y1 (by omega) (by omega)
  refine ⟨y', ?_, by omega, ?_⟩
  · simp only [saxpy_manual_impl, if_true, hl, hmain, Option.some_bind, Option.bind_eq_bind,
      saxpy_manual_impl_cleanup_eq]
    exact hrun
  · intro j
    rw [hval j]
    by_cases hc : j < limit
    · have h1 : ¬ (limit ≤ j ∧ j < n) := by omega
      have h2 : 0 ≤ j ∧ j < limit := by omega
      rw [if_neg h1, if_pos hc, hval1 j, if_pos h2]
    · have h2 : ¬ (0 ≤ j ∧ j < limit) := by omega
      have hj := hval1 j
      rw [if_neg h2] at hj
      rw [if_neg hc]
      by_cases hn : j < n
      · have h1 : limit ≤ j ∧ j < n := by omega
        rw [if_pos h1, if_pos hn]
        simp [saxpy_elem, hj]
      · have h1 : ¬ (limit ≤ j ∧ j < n) := by omega
        rw [if_neg h1, if_neg hn, hj]

theorem saxpy_elem_vec_eq [AddCommMagma α] [CommMagma α] (a : α) (x y : List α) (j : Nat) :
    saxpy_elem_vec a x y j = saxpy_elem a x y j := by
  unfold saxpy_elem_vec saxpy_elem
  cases x[j]? with
  | none => rfl
  | some xj =>
    cases y[j]? with
    | none => rfl
    | some yj => simp [add_comm, mul_comm]

/-- On the vector path, with commutative `+` and `*`, `saxpy_manual_impl<UNROLL>` leaves what
`saxpy_scalar` leaves. -/
theorem saxpy_manual_impl_eq_scalar [AddCommMagma α] [CommMagma α] (UNROLL : Nat)
    (hU : 0 < UNROLL) (y x : List α) (a : α) (n : Nat) (hx : n ≤ x.length)
    (hy : n ≤ y.length) :
    saxpy_manual_impl true UNROLL y x a n = saxpy_scalar y x a n := by
  obtain ⟨y1, hrun1, hlen1, hval1⟩ := saxpy_manual_impl_spec UNROLL hU y x a n hx hy
  obtain ⟨y2, hrun2, hlen2, hval2⟩ := saxpy_scalar_spec y x a n hx hy
  rw [hrun1, hrun2]
  congr 1
  apply List.ext_getElem?
  intro j
  rw [hval1 j, hval2 j, saxpy_elem_vec_eq]
  by_cases hc : j < n / (UNROLL * 4) * (UNROLL * 4)
  · have hn : j < n := lt_of_lt_of_le hc (Nat.div_mul_le_self n (UNROLL * 4))
    rw [if_pos hc, if_pos hn]
  · rw [if_neg hc]

theorem foldl_add_eq_sum [AddCommMonoid α] (l : List α) :
    ∀ acc : α, l.foldl (fun s p => s + p) acc = acc + l.sum := by
  induction l with
  | nil => intro acc; simp
  | cons p l ih => intro acc; simp [ih, add_assoc]

/-- Invariant of the main loop of `dot_manual` started at `i`, a whole number of steps below
`n_vec`, read with exact addition: the horizontal sum of the accumulator grows by the sum of
the products of the indices `i ≤ j < n_vec`. -/
theorem dot_manual_main_spec [AddCommMonoid α] [Mul α] (x y : List α) (n_vec : Nat)
    (hx : n_vec ≤ x.length) (hy : n_vec ≤ y.length) :
    ∀ (fuel i : Nat) (s : float32x4_t α), (∃ k, i + k * 4 = n_vec) → n_vec - i < fuel →
      ∃ s', dot_manual_main x y 4 n_vec fuel i s = some (n_vec, s') ∧
        (s'.lane0 + s'.lane2) + (s'.lane1 + s'.lane3) =
          ((s.lane0 + s.lane2) + (s.lane1 + s.lane3)) +
            (((List.zipWith (fun u v => u * v) x y).take n_vec).drop i).sum := by
  intro fuel
  induction fuel with
  | zero => intro i s _ h; omega
  | succ fuel ih =>
    intro i s hk hfuel
    obtain ⟨k, hk⟩ := hk
    by_cases hin : i < n_vec
    · have hxb : i + 3 < x.length := by omega
      have hyb : i + 3 < y.length := by omega
      obtain ⟨s', hrun, hsum⟩ := ih (i + 4)
        (vaddq_f32 s (vmulq_f32 ⟨x[i], x[i + 1], x[i + 2], x[i + 3]⟩
          ⟨y[i], y[i + 1], y[i + 2], y[i + 3]⟩)) ⟨k - 1, by omega⟩ (by omega)
      refine ⟨s', ?_, ?_⟩
      · rw [dot_manual_main, if_pos hin]
        simp only [vld1q_f32_of_lt hxb, vld1q_f32_of_lt hyb, Option.some_bind,
          Option.bind_eq_bind]
        exact hrun
      · have hlen : ((List.zipWith (fun u v => u * v) x y).take n_vec).length = n_vec := by
          simp; omega
        have h0 : i < ((List.zipWith (fun u v => u * v) x y).take n_vec).length := by omega
        have h1 : i + 1 < ((List.zipWith (fun u v => u * v) x y).take n_vec).length := by
          omega
        have h2 : i + 2 < ((List.zipWith (fun u v => u * v) x y).take n_vec).length := by
          omega
        have h3 : i + 3 < ((List.zipWith (fun u v => u * v) x y).take n_vec).length := by
          omega
        rw [hsum, List.drop_eq_getElem_cons h0, List.drop_eq_getElem_cons h1,
          List.drop_eq_getElem_cons h2, List.drop_eq_getElem_cons h3]
        simp only [List.sum_cons, List.getElem_take, List.getElem_zipWith, vaddq_f32,
          vmulq_f32]
        abel
    · have hil : i = n_vec := by omega
      refine ⟨s, ?_, ?_⟩
      · rw [dot_manual_main, if_neg hin, hil]
      · have hdrop : ((List.zipWith (fun u v => u * v) x y).take n_vec).drop i = [] := by
          apply List.drop_eq_nil_of_le
          simp; omega
        simp [hdrop]

/-- With exact addition, `dot_manual` on the vector path returns what `dot_scalar` returns. -/
theorem dot_manual_eq_scalar_of_exact [AddCommMonoid α] [Mul α] (x y : List α) (n : Nat)
    (hx : n ≤ x.length) (hy : n ≤ y.length) :
    dot_manual true x y n = dot_scalar x y n := by
  have hnv : n - n % 4 ≤ n := Nat.sub_le _ _
  have hk : 0 + (n / 4) * 4 = n - n % 4 := by omega
  obtain ⟨s', hmain, hsum⟩ := dot_manual_main_spec x y (n - n % 4) (by omega) (by omega)
    (n + 1) 0 (vdupq_n_f32 (0 : α)) ⟨n / 4, hk⟩ (by omega)
  have hclean := dot_scalar_loop_spec x y n hx hy (n + 1) (n - n % 4)
    ((s'.lane0 + s'.lane2) + (s'.lane1 + s'.lane3)) (by omega)
  rw [dot_scalar_spec x y n hx hy]
  simp only [dot_manual, if_true, hmain, Option.some_bind, Option.bind_eq_bind,
    dot_manual_cleanup_eq, vget_low_f32, vget_high_f32, vadd_f32, vget_lane_f32,
    if_true, if_false, one_ne_zero]
  rw [hclean, foldl_add_eq_sum, foldl_add_eq_sum, hsum]
  have hsplit : ((List.zipWith (fun u v => u * v) x y).take n) =
      ((List.zipWith (fun u v => u * v) x y).take (n - n % 4)) ++
        (((List.zipWith (fun u v => u * v) x y).take n).drop (n - n % 4)) := by
    conv_lhs => rw [← List.take_append_drop (n - n % 4)
      ((List.zipWith (fun u v => u * v) x y).take n)]
    rw [List.take_take, Nat.min_eq_left hnv]
  conv_rhs => rw [hsplit]
  simp [vdupq_n_f32, List.sum_append]

/-- After `k` successive runs of `saxpy_scalar`, with exact arithmetic, the index `j < n` holds
`y0[j] + k * a * x[j]`. -/
theorem successive_saxpy_scalar_spec [Semiring α] (x y0 : List α) (a : α) (n : Nat)
    (hx : n ≤ x.length) (hy : n ≤ y0.length) :
    ∀ k : Nat, ∃ yk, successive (fun y => saxpy_scalar y x a n) k y0 = some yk ∧
      yk.length = y0.length ∧
      ∀ j, yk[j]? = if j < n then
          (x[j]?).bind fun xj => (y0[j]?).map fun yj => yj + (k : α) * a * xj
        else y0[j]? := by
  intro k
  induction k with
  | zero =>
    refine ⟨y0, rfl, rfl, ?_⟩
    intro j
    by_cases hj : j < n
    · have h1 : j < x.length := by omega
      have h2 : j < y0.length := by omega
      simp [hj, h1, h2]
    · simp [hj]
  | succ k ih =>
    obtain ⟨yk, hrun, hlen, hval⟩ := ih
    obtain ⟨y', hrun', hlen', hval'⟩ := saxpy_scalar_spec yk x a n hx (by omega)
    refine ⟨y', by simp [successive, hrun, hrun'], by omega, ?_⟩
    intro j
    rw [hval' j]
    by_cases hj : j < n
    · have h1 : j < x.length := by omega
      have h2 : j < y0.length := by omega
      have hk := hval j
      simp only [hj, if_true] at hk ⊢
      simp only [saxpy_elem, hk, List.getElem?_eq_getElem h1, List.getElem?_eq_getElem h2,
        Option.some_bind, Option.map_some', Option.some.injEq, Nat.cast_succ, add_mul, one_mul]
      abel
    · simp [hj, hval j]

/-- The main loop of `dot_manual` started a whole number of steps below `n_vec` ends with
`i = n_vec`, whatever the arithmetic. -/
theorem dot_manual_main_some [Add α] [Mul α] (x y : List α) (n_vec : Nat)
    (hx : n_vec ≤ x.length) (hy : n_vec ≤ y.length) :
    ∀ (fuel i : Nat) (s : float32x4_t α), (∃ k, i + k * 4 = n_vec) → n_vec - i < fuel →
      ∃ s', dot_manual_main x y 4 n_vec fuel i s = some (n_vec, s') := by
  intro fuel
  induction fuel with
  | zero => intro i s _ h; omega
  | succ fuel ih =>
    intro i s hk hfuel
    obtain ⟨k, hk⟩ := hk
    by_cases hin : i < n_vec
    · have hxb : i + 3 < x.length := by omega
      have hyb : i + 3 < y.length := by omega
      obtain ⟨s', hrun⟩ := ih (i + 4)
        (vaddq_f32 s (vmulq_f32 ⟨x[i], x[i + 1], x[i + 2], x[i + 3]⟩
          ⟨y[i], y[i + 1], y[i + 2], y[i + 3]⟩)) ⟨k - 1, by omega⟩ (by omega)
      refine ⟨s', ?_⟩
      rw [dot_manual_main, if_pos hin]
      simp only [vld1q_f32_of_lt hxb, vld1q_f32_of_lt hyb, Option.some_bind,
        Option.bind_eq_bind]
      exact hrun
    · have hil : i = n_vec := by omega
      exact ⟨s, by rw [dot_manual_main, if_neg hin, hil]⟩

/-- Every dot-product variant returns for buffers of at least `n` elements. -/
theorem dot_variant_some [Add α] [Mul α] [Zero α] (VECPLAY_HAS_NEON : Bool)
    (variant : VariantKind) (x y : List α) (n : Nat) (hx : n ≤ x.length) (hy : n ≤ y.length) :
    ∃ d, dot_variant VECPLAY_HAS_NEON variant x y n = some d := by
  have hscalar := dot_scalar_spec x y n hx hy
  cases variant with
  | Scalar => exact ⟨_, hscalar⟩
  | Auto =>
    have hauto : dot_auto x y n = dot_scalar x y n := dot_auto_loop_eq x y n (n + 1) 0 0
    exact ⟨_, hauto.trans hscalar⟩
  | Manual =>
    cases VECPLAY_HAS_NEON with
    | false => exact ⟨_, by simpa [dot_variant, dot_manual] using hscalar⟩
    | true =>
      have hk : 0 + (n / 4) * 4 = n - n % 4 := by omega
      obtain ⟨s', hmain⟩ := dot_manual_main_some x y (n - n % 4) (by omega) (by omega)
        (n + 1) 0 (vdupq_n_f32 (0 : α)) ⟨n / 4, hk⟩ (by omega)
      have hclean := dot_scalar_loop_spec x y n hx hy (n + 1) (n - n % 4)
        ((s'.lane0 + s'.lane2) + (s'.lane1 + s'.lane3)) (by omega)
      have hman : dot_variant true VariantKind.Manual x y n =
          dot_scalar_loop x y n (n + 1) (n - n % 4)
            ((s'.lane0 + s'.lane2) + (s'.lane1 + s'.lane3)) := by
        simp only [dot_variant, dot_manual, if_true, hmain, Option.some_bind,
          Option.bind_eq_bind, dot_manual_cleanup_eq, vget_low_f32, vget_high_f32, vadd_f32,
          vget_lane_f32, if_true, if_false, one_ne_zero]
      exact ⟨_, hman.trans hclean⟩

/-- Every SAXPY variant, with any unroll factor, returns a buffer of the same length for
buffers of at least `n` elements. -/
theorem saxpy_variant_some [Add α] [Mul α] (VECPLAY_HAS_NEON : Bool) (variant : VariantKind)
    (unroll_factor : Int) (y x : List α) (a : α) (n : Nat) (hx : n ≤ x.length)
    (hy : n ≤ y.length) :
    ∃ y', saxpy_variant VECPLAY_HAS_NEON variant unroll_factor y x a n = some y' ∧
      y'.length = y.length := by
  obtain ⟨ys, hs, hlen, _⟩ := saxpy_scalar_spec y x a n hx hy
  cases variant with
  | Scalar => exact ⟨ys, hs, hlen⟩
  | Auto =>
    have hauto : saxpy_auto y x a n = saxpy_scalar y x a n :=
      saxpy_auto_loop_eq x a n (n + 1) 0 y
    exact ⟨ys, hauto.trans hs, hlen⟩
  | Manual =>
    cases VECPLAY_HAS_NEON with
    | false => exact ⟨ys, by simpa [saxpy_variant, saxpy_manual_unrolled] using hs, hlen⟩
    | true =>
      obtain ⟨y1, h1, l1, _⟩ := saxpy_manual_impl_spec 1 (by decide) y x a n hx hy
      obtain ⟨y2, h2, l2, _⟩ := saxpy_manual_impl_spec 2 (by decide) y x a n hx hy
      obtain ⟨y4, h4, l4, _⟩ := saxpy_manual_impl_spec 4 (by decide) y x a n hx hy
      obtain ⟨y8, h8, l8, _⟩ := saxpy_manual_impl_spec 8 (by decide) y x a n hx hy
      simp only [saxpy_variant, saxpy_manual_unrolled, if_true]
      split_ifs
      · exact ⟨y1, h1, l1⟩
      · exact ⟨y2, h2, l2⟩
      · exact ⟨y4, h4, l4⟩
      · exact ⟨y8, h8, l8⟩
      · exact ⟨y2, h2, l2⟩

/-- With commutative `+` and `*`, every SAXPY variant, with any unroll factor and on either
build, leaves what `saxpy_scalar` leaves. -/
theorem saxpy_variant_eq_scalar [AddCommMagma α] [CommMagma α] (VECPLAY_HAS_NEON : Bool)
    (variant : VariantKind) (unroll_factor : Int) (y x : List α) (a : α) (n : Nat)
    (hx : n ≤ x.length) (hy : n ≤ y.length) :
    saxpy_variant VECPLAY_HAS_NEON variant unroll_factor y x a n = saxpy_scalar y x a n := by
  cases variant with
  | Scalar => rfl
  | Auto => exact saxpy_auto_loop_eq x a n (n + 1) 0 y
  | Manual =>
    cases VECPLAY_HAS_NEON with
    | false => simp [saxpy_variant, saxpy_manual_unrolled]
    | true =>
      simp only [saxpy_variant, saxpy_manual_unrolled, if_true]
      split_ifs
      · exact saxpy_manual_impl_eq_scalar 1 (by decide) y x a n hx hy
      · exact saxpy_manual_impl_eq_scalar 2 (by decide) y x a n hx hy
      · exact saxpy_manual_impl_eq_scalar 4 (by decide) y x a n hx hy
      · exact saxpy_manual_impl_eq_scalar 8 (by decide) y x a n hx hy
      · exact saxpy_manual_impl_eq_scalar 2 (by decide) y x a n hx hy

/-- With exact addition, every dot-product variant returns what `dot_scalar` returns. -/
theorem dot_variant_eq_scalar [AddCommMonoid α] [Mul α] (VECPLAY_HAS_NEON : Bool)
    (variant : VariantKind) (x y : List α) (n : Nat) (hx : n ≤ x.length)
    (hy : n ≤ y.length) :
    dot_variant VECPLAY_HAS_NEON variant x y n = dot_scalar x y n := by
  cases variant with
  | Scalar => rfl
  | Auto => exact dot_auto_loop_eq x y n (n + 1) 0 0
  | Manual =>
    cases VECPLAY_HAS_NEON with
    | false => simp [dot_variant, dot_manual]
    | true => exact dot_manual_eq_scalar_of_exact x y n hx hy

/-- With `n = 0` every SAXPY variant returns `y` as it is. -/
theorem saxpy_variant_zero [Add α] [Mul α] (VECPLAY_HAS_NEON : Bool) (variant : VariantKind)
    (unroll_factor : Int) (y x : List α) (a : α) :
    saxpy_variant VECPLAY_HAS_NEON variant unroll_factor y x a 0 = some y := by
  have hs : saxpy_scalar y x a 0 = some y := by simp [saxpy_scalar, saxpy_scalar_loop]
  have hi : ∀ U : Nat, saxpy_manual_impl true U y x a 0 = some y := by
    intro U
    simp [saxpy_manual_impl, saxpy_manual_impl_main, saxpy_manual_impl_cleanup]
  cases variant with
  | Scalar => exact hs
  | Auto => exact (saxpy_auto_loop_eq x a 0 1 0 y).trans hs
  | Manual =>
    cases hb : VECPLAY_HAS_NEON with
    | false => simpa [saxpy_variant, saxpy_manual_unrolled] using hs
    | true =>
      subst hb
      simp only [saxpy_variant, saxpy_manual_unrolled, if_true]
      split_ifs <;> exact hi _

/-- With `n = 0` every dot-product variant returns `0`, given `0 + 0 = 0` (the horizontal
add of the zero accumulator of `dot_manual`). -/
theorem dot_variant_zero [Add α] [Mul α] [Zero α] (h0 : (0 : α) + 0 = 0)
    (VECPLAY_HAS_NEON : Bool) (variant : VariantKind) (x y : List α) :
    dot_variant VECPLAY_HAS_NEON variant x y 0 = some 0 := by
  have hs : dot_scalar x y 0 = some 0 := by simp [dot_scalar, dot_scalar_loop]
  cases variant with
  | Scalar => exact hs
  | Auto => exact (dot_auto_loop_eq x y 0 1 0 0).trans hs
  | Manual =>
    cases VECPLAY_HAS_NEON with
    | false => simpa [dot_variant, dot_manual] using hs
    | true =>
      simp [dot_variant, dot_manual, dot_manual_main, dot_manual_cleanup, vdupq_n_f32,
        vget_low_f32, vget_high_f32, vadd_f32, vget_lane_f32, h0]

/-- The indices of one more block of four. -/
theorem range_add_four (k : Nat) :
    List.range (4 * (k + 1)) = List.range (4 * k) ++ [4 * k, 4 * k + 1, 4 * k + 2, 4 * k + 3] := by
  have h : 4 * (k + 1) = 4 * k + 1 + 1 + 1 + 1 := by omega
  rw [h, List.range_succ, List.range_succ, List.range_succ, List.range_succ]
  simp

/-- One more block of four adds the product at `4 * k + j` to lane `j`. -/
theorem lane_products_succ [Mul α] (x y : List α) (k j : Nat) (hj : j < 4)
    (hx : 4 * k + 3 < x.length) (hy : 4 * k + 3 < y.length) :
    lane_products x y (4 * (k + 1)) j =
      lane_products x y (4 * k) j ++ [x[4 * k + j] * y[4 * k + j]] := by
  unfold lane_products
  rw [range_add_four, List.filter_append, List.filterMap_append]
  congr 1
  have h0 : (4 * k) % 4 = 0 := by omega
  have h1 : (4 * k + 1) % 4 = 1 := by omega
  have h2 : (4 * k + 2) % 4 = 2 := by omega
  have h3 : (4 * k + 3) % 4 = 3 := by omega
  have hj' : j = 0 ∨ j = 1 ∨ j = 2 ∨ j = 3 := by omega
  rcases hj' with rfl | rfl | rfl | rfl <;>
    simp [List.filter, h0, h1, h2, h3, List.getElem?_eq_getElem, hx, hy,
      show 4 * k < x.length by omega, show 4 * k < y.length by omega,
      show 4 * k + 1 < x.length by omega, show 4 * k + 1 < y.length by omega,
      show 4 * k + 2 < x.length by omega, show 4 * k + 2 < y.length by omega]

/-- One more block of four adds the product at `4 * k + j` to the sum of lane `j`. -/
theorem lane_sum_succ [Add α] [Mul α] [Zero α] (x y : List α) (k j : Nat) (hj : j < 4)
    (hx : 4 * k + 3 < x.length) (hy : 4 * k + 3 < y.length) :
    lane_sum x y (4 * (k + 1)) j = lane_sum x y (4 * k) j + x[4 * k + j] * y[4 * k + j] := by
  unfold lane_sum
  rw [lane_products_succ x y k j hj hx hy, List.foldl_append]
  rfl

/-- Invariant of the main loop of `dot_manual`, lane by lane and with no law of arithmetic:
entered at `i = 4 * k` with lane `j` of the accumulator holding the left-to-right sum of the
products of lane `j` below `4 * k`, it ends at `i = 4 * K` with the sums below `4 * K`. -/
theorem dot_manual_main_lanes [Add α] [Mul α] [Zero α] (x y : List α) (K : Nat)
    (hx : 4 * K ≤ x.length) (hy : 4 * K ≤ y.length) :
    ∀ (fuel k : Nat) (s : float32x4_t α), k ≤ K → 4 * K - 4 * k < fuel →
      s.lane0 = lane_sum x y (4 * k) 0 → s.lane1 = lane_sum x y (4 * k) 1 →
      s.lane2 = lane_sum x y (4 * k) 2 → s.lane3 = lane_sum x y (4 * k) 3 →
      ∃ s', dot_manual_main x y 4 (4 * K) fuel (4 * k) s = some (4 * K, s') ∧
        s'.lane0 = lane_sum x y (4 * K) 0 ∧ s'.lane1 = lane_sum x y (4 * K) 1 ∧
        s'.lane2 = lane_sum x y (4 * K) 2 ∧ s'.lane3 = lane_sum x y (4 * K) 3 := by
  intro fuel
  induction fuel with
  | zero => intro k s _ h; omega
  | succ fuel ih =>
    intro k s hk hfuel h0 h1 h2 h3
    by_cases hin : 4 * k < 4 * K
    · have hxb : 4 * k + 3 < x.length := by omega
      have hyb : 4 * k + 3 < y.length := by omega
      obtain ⟨s', hrun, hs⟩ := ih (k + 1)
        (vaddq_f32 s (vmulq_f32 ⟨x[4 * k], x[4 * k + 1], x[4 * k + 2], x[4 * k + 3]⟩
          ⟨y[4 * k], y[4 * k + 1], y[4 * k + 2], y[4 * k + 3]⟩)) (by omega) (by omega)
        (by rw [lane_sum_succ x y k 0 (by decide) hxb hyb, ← h0]; rfl)
        (by rw [lane_sum_succ x y k 1 (by decide) hxb hyb, ← h1]; rfl)
        (by rw [lane_sum_succ x y k 2 (by decide) hxb hyb, ← h2]; rfl)
        (by rw [lane_sum_succ x y k 3 (by decide) hxb hyb, ← h3]; rfl)
      refine ⟨s', ?_, hs⟩
      rw [dot_manual_main, if_pos hin]
      simp only [vld1q_f32_of_lt hxb, vld1q_f32_of_lt hyb, Option.some_bind,
        Option.bind_eq_bind]
      have hidx : 4 * k + 4 = 4 * (k + 1) := by omega
      rw [hidx]
      exact hrun
    · have hkK : k = K := by omega
      subst hkK
      exact ⟨s, by rw [dot_manual_main, if_neg hin], h0, h1, h2, h3⟩

end KernelTheorems

/-! ### The driver -/

section DriverTheorems

variable {α β : Type}

theorem successive_succ {σ : Type} (step : σ → Option σ) :
    ∀ (k : Nat) (s : σ), successive step (k + 1) s = (step s).bind (successive step k) := by
  intro k
  induction k with
  | zero => intro s; simp [successive]
  | succ k ih =>
    intro s
    rw [successive, ih s]
    cases step s with
    | none => rfl
    | some s1 => simp [successive]

theorem successive_add {σ : Type} (step : σ → Option σ) (m : Nat) :
    ∀ (d : Nat) (s : σ),
      successive step (m + d) s = (successive step m s).bind (successive step d) := by
  intro d
  induction d with
  | zero => intro s; simp [successive]
  | succ d ih =>
    intro s
    rw [← Nat.add_assoc, successive, ih s]
    cases successive step m s with
    | none => rfl
    | some s1 => simp [successive]

/-- The timed loop with a negative counter `iter`: it makes as many passes as there are
values `2 ^ 64 + iter, 2 ^ 64 + iter + 1, ...` below `config.iterations`. -/
theorem run_benchmark_loop_neg [Add α] [Mul α] [Zero α] (VECPLAY_HAS_NEON : Bool)
    (config : BenchConfig) (x : List α) (alpha : α)
    (hit : config.iterations < 18446744073709551616) :
    ∀ (d fuel : Nat) (iter : Int) (state : List α × α), -2147483648 ≤ iter → iter < 0 →
      (d : Int) = max 0 ((config.iterations : Int) - (18446744073709551616 + iter)) →
      d < fuel →
      run_benchmark_loop VECPLAY_HAS_NEON config x alpha fuel iter state =
        successive (run_benchmark_dispatch VECPLAY_HAS_NEON config x alpha) d state := by
  intro d
  induction d with
  | zero =>
    intro fuel iter state h1 h2 hd hfuel
    obtain ⟨fuel, rfl⟩ : ∃ f, fuel = f + 1 := ⟨fuel - 1, by omega⟩
    have hc : ¬ (int_to_size_t iter < config.iterations) := by
      unfold int_to_size_t; omega
    simp [run_benchmark_loop, hc, successive]
  | succ d ih =>
    intro fuel iter state h1 h2 hd hfuel
    obtain ⟨fuel, rfl⟩ : ∃ f, fuel = f + 1 := ⟨fuel - 1, by omega⟩
    have hc : int_to_size_t iter < config.iterations := by
      unfold int_to_size_t; omega
    have hw : int_wrap (iter + 1) = iter + 1 := by
      unfold int_wrap; omega
    rw [run_benchmark_loop, if_pos hc, hw, successive_succ]
    cases hs : run_benchmark_dispatch VECPLAY_HAS_NEON config x alpha state with
    | none => rfl
    | some s1 =>
      simp only [Option.some_bind, Option.bind_eq_bind]
      exact ih fuel (iter + 1) s1 (by omega) (by omega) (by omega) (by omega)

/-- The timed loop with a non-negative counter `iter`: `m` passes while the counter stays
below `config.iterations` and within the `int` range, then the loop goes on from the
(possibly wrapped) counter `iter + m`. -/
theorem run_benchmark_loop_nonneg [Add α] [Mul α] [Zero α] (VECPLAY_HAS_NEON : Bool)
    (config : BenchConfig) (x : List α) (alpha : α) :
    ∀ (m fuel : Nat) (iter : Int) (state : List α × α), 0 ≤ iter → iter < 2147483648 →
      iter + m ≤ 2147483648 → iter + m ≤ config.iterations →
      run_benchmark_loop VECPLAY_HAS_NEON config x alpha (fuel + m) iter state =
        (successive (run_benchmark_dispatch VECPLAY_HAS_NEON config x alpha) m state).bind
          (run_benchmark_loop VECPLAY_HAS_NEON config x alpha fuel (int_wrap (iter + m))) := by
  intro m
  induction m with
  | zero =>
    intro fuel iter state h1 h2 _ _
    have hw : int_wrap iter = iter := by
      unfold int_wrap; omega
    simp [successive, hw]
  | succ m ih =>
    intro fuel iter state h1 h2 h3 h4
    have hc : int_to_size_t iter < config.iterations := by
      unfold int_to_size_t; omega
    rw [← Nat.add_assoc, run_benchmark_loop, if_pos hc, successive_succ]
    cases hs : run_benchmark_dispatch VECPLAY_HAS_NEON config x alpha state with
    | none => rfl
    | some s1 =>
      simp only [Option.some_bind, Option.bind_eq_bind]
      by_cases hlast : iter + 1 < 2147483648
      · have hw : int_wrap (iter + 1) = iter + 1 := by
          unfold int_wrap; omega
        rw [hw, ih fuel (iter + 1) s1 (by omega) hlast (by push_cast at h3 ⊢; omega)
          (by push_cast at h4 ⊢; omega)]
        have hidx : iter + 1 + (m : Int) = iter + ((m + 1 : Nat) : Int) := by
          push_cast; omega
        rw [hidx]
      · have hm : m = 0 := by push_cast at h3; omega
        subst hm
        simp [successive]

/-- The timed loop of `run_benchmark`, for every `config.iterations` below `2 ^ 64`, ends and
is `trip_count config.iterations` passes of the dispatch in succession. -/
theorem run_benchmark_loop_eq [Add α] [Mul α] [Zero α] (VECPLAY_HAS_NEON : Bool)
    (config : BenchConfig) (x : List α) (alpha : α)
    (hit : config.iterations < 18446744073709551616) (state : List α × α) :
    run_benchmark_loop VECPLAY_HAS_NEON config x alpha (config.iterations + 1) 0 state =
      successive (run_benchmark_dispatch VECPLAY_HAS_NEON config x alpha)
        (trip_count config.iterations) state := by
  have hfuel : config.iterations + 1 =
      (config.iterations + 1 - min config.iterations 2147483648) +
        min config.iterations 2147483648 := by
    omega
  have htail : run_benchmark_loop VECPLAY_HAS_NEON config x alpha
        (config.iterations + 1 - min config.iterations 2147483648)
        (int_wrap (0 + ((min config.iterations 2147483648 : Nat) : Int))) =
      successive (run_benchmark_dispatch VECPLAY_HAS_NEON config x alpha)
        (config.iterations - 18446744071562067968) := by
    funext s
    by_cases hsmall : config.iterations < 2147483648
    · have hm : min config.iterations 2147483648 = config.iterations := by omega
      have hd : config.iterations - 18446744071562067968 = 0 := by omega
      have hw : int_wrap (0 + (config.iterations : Int)) = config.iterations := by
        unfold int_wrap; omega
      have hc : ¬ (int_to_size_t (config.iterations : Int) < config.iterations) := by
        unfold int_to_size_t; omega
      have hf : config.iterations + 1 - config.iterations = 0 + 1 := by omega
      rw [hm, hd, hw, hf, run_benchmark_loop, if_neg hc]
      rfl
    · have hm : min config.iterations 2147483648 = 2147483648 := by omega
      have hw : int_wrap (0 + ((2147483648 : Nat) : Int)) = -2147483648 := by
        unfold int_wrap; omega
      rw [hm, hw]
      exact run_benchmark_loop_neg VECPLAY_HAS_NEON config x alpha hit
        (config.iterations - 18446744071562067968) _ (-2147483648) s (by omega) (by omega)
        (by omega) (by omega)
  rw [hfuel, run_benchmark_loop_nonneg VECPLAY_HAS_NEON config x alpha
    (min config.iterations 2147483648) _ 0 state (by omega) (by omega) (by omega) (by omega),
    htail, ← successive_add]
  have htc : min config.iterations 2147483648 + (config.iterations - 18446744071562067968) =
      trip_count config.iterations := by
    unfold trip_count
    split_ifs <;> omega
  rw [htc]

/-- The fill loop returns two buffers of `n` elements. -/
theorem run_benchmark_fill_some (src : RandomSource α) (n : Nat) :
    ∀ (fuel i : Nat) (rng : src.Engine) (x y : List α), x.length = n → y.length = n →
      n - i < fuel →
      ∃ x' y', run_benchmark_fill src n fuel i rng x y = some (x', y') ∧ x'.length = n ∧
        y'.length = n := by
  intro fuel
  induction fuel with
  | zero => intro i rng x y _ _ h; omega
  | succ fuel ih =>
    intro i rng x y hx hy hfuel
    by_cases hin : i < n
    · obtain ⟨x', y', hrun, hx', hy'⟩ := ih (i + 1) (src.dist (src.dist rng).2).2
        (x.set i (src.dist rng).1) (y.set i (src.dist (src.dist rng).2).1) (by simpa using hx)
        (by simpa using hy) (by omega)
      refine ⟨x', y', ?_, hx', hy'⟩
      rw [run_benchmark_fill, if_pos hin]
      simp only [store_of_lt _ (show i < x.length by omega),
        store_of_lt _ (show i < y.length by omega), Option.some_bind, Option.bind_eq_bind]
      exact hrun
    · exact ⟨x, y, by rw [run_benchmark_fill, if_neg hin], hx, hy⟩

theorem generated_buffers_some [Zero α] (src : RandomSource α) (n : Nat) :
    ∃ x y, generated_buffers src n = some (x, y) ∧ x.length = n ∧ y.length = n :=
  run_benchmark_fill_some src n (n + 1) 0 _ _ _ (by simp) (by simp) (by omega)

/-- The dispatch of `run_benchmark` in terms of the selected kernel. -/
theorem run_benchmark_dispatch_eq [Add α] [Mul α] [Zero α] (VECPLAY_HAS_NEON : Bool)
    (config : BenchConfig) (x : List α) (alpha : α) (state : List α × α) :
    run_benchmark_dispatch VECPLAY_HAS_NEON config x alpha state =
      match config.kernel with
      | KernelKind.Saxpy =>
        (saxpy_variant VECPLAY_HAS_NEON config.variant config.unroll_factor state.1 x alpha
          config.n).map fun y' => (y', state.2)
      | KernelKind.Dot =>
        (dot_variant VECPLAY_HAS_NEON config.variant x state.1 config.n).map
          fun checksum => (state.1, checksum) := by
  unfold run_benchmark_dispatch
  cases config.kernel <;> cases config.variant
  · cases h : saxpy_scalar state.1 x alpha config.n <;> simp [saxpy_variant, h]
  · cases h : saxpy_auto state.1 x alpha config.n <;> simp [saxpy_variant, h]
  · cases h : saxpy_manual_unrolled VECPLAY_HAS_NEON state.1 x alpha config.n
      config.unroll_factor <;> simp [saxpy_variant, h]
  · cases h : dot_scalar x state.1 config.n <;> simp [dot_variant, h]
  · cases h : dot_auto x state.1 config.n <;> simp [dot_variant, h]
  · cases h : dot_manual VECPLAY_HAS_NEON x state.1 config.n <;> simp [dot_variant, h]

/-- For SAXPY, `k` passes of the dispatch are `k` successive runs of the selected kernel on
`y`; the local `checksum` is not touched. -/
theorem successive_dispatch_saxpy [Add α] [Mul α] [Zero α] (VECPLAY_HAS_NEON : Bool)
    (config : BenchConfig) (hk : config.kernel = KernelKind.Saxpy) (x : List α) (alpha : α)
    (c : α) :
    ∀ (k : Nat) (y : List α),
      successive (run_benchmark_dispatch VECPLAY_HAS_NEON config x alpha) k (y, c) =
        (successive (fun y => saxpy_variant VECPLAY_HAS_NEON config.variant
          config.unroll_factor y x alpha config.n) k y).map fun y' => (y', c) := by
  intro k
  induction k with
  | zero => intro y; rfl
  | succ k ih =>
    intro y
    rw [successive, successive, ih y]
    cases successive (fun y => saxpy_variant VECPLAY_HAS_NEON config.variant
        config.unroll_factor y x alpha config.n) k y with
    | none => rfl
    | some yk => simp [run_benchmark_dispatch_eq, hk]

/-- For the dot product, one pass or more of the dispatch leave `y` as it is and the value of
one call of the selected kernel in `checksum`. -/
theorem successive_dispatch_dot [Add α] [Mul α] [Zero α] (VECPLAY_HAS_NEON : Bool)
    (config : BenchConfig) (hk : config.kernel = KernelKind.Dot) (x y : List α) (alpha d : α)
    (hd : dot_variant VECPLAY_HAS_NEON config.variant x y config.n = some d) :
    ∀ (k : Nat) (c : α),
      successive (run_benchmark_dispatch VECPLAY_HAS_NEON config x alpha) k (y, c) =
        some (y, if k = 0 then c else d) := by
  intro k
  induction k with
  | zero => intro c; rfl
  | succ k ih =>
    intro c
    rw [successive, ih c]
    simp [run_benchmark_dispatch_eq, hk, hd]

/-- `run_benchmark`, for `config.iterations` below `2 ^ 64`, in terms of the generated buffers
and `trip_count config.iterations` successive passes of the dispatch. -/
theorem run_benchmark_eq [Add α] [Mul α] [Zero α] [OfScientific α] [Mul β] [Div β] [NatCast β]
    [OfScientific β] (VECPLAY_HAS_NEON : Bool) (src : RandomSource α) (time_seconds : β)
    (config : BenchConfig) (hit : config.iterations < 18446744073709551616) :
    run_benchmark VECPLAY_HAS_NEON src time_seconds config =
      (generated_buffers src config.n).bind fun xy =>
        (successive (run_benchmark_dispatch VECPLAY_HAS_NEON config xy.1 1.25)
          (trip_count config.iterations) (xy.2, 0)).map fun st =>
          ⟨time_seconds,
            if config.kernel = KernelKind.Saxpy then st.1.foldl (fun c val => c + val) 0
            else st.2,
            2.0 * (config.n : β) * (config.iterations : β) / (time_seconds * 1e9)⟩ := by
  obtain ⟨x, y, hfill, _, _⟩ := generated_buffers_some src config.n
  rw [hfill]
  unfold generated_buffers at hfill
  unfold run_benchmark
  simp only [hfill, Option.some_bind, Option.bind_eq_bind,
    run_benchmark_loop_eq VECPLAY_HAS_NEON config x 1.25 hit]
  cases successive (run_benchmark_dispatch VECPLAY_HAS_NEON config x 1.25)
      (trip_count config.iterations) (y, 0) with
  | none => rfl
  | some st => rfl

theorem trip_count_of_le (iterations : Nat) (h : iterations ≤ 2147483648) :
    trip_count iterations = iterations := by
  unfold trip_count
  rw [if_pos h]

theorem trip_count_pos (iterations : Nat) (h1 : 1 ≤ iterations)
    (h2 : iterations < 18446744073709551616) : trip_count iterations ≠ 0 := by
  unfold trip_count
  split_ifs <;> omega

/-- Successive runs of a SAXPY variant on buffers of at least `n` elements all return, with
the length of `y` kept. -/
theorem successive_saxpy_variant_some [Add α] [Mul α] (VECPLAY_HAS_NEON : Bool)
    (variant : VariantKind) (unroll_factor : Int) (x : List α) (a : α) (n : Nat)
    (hx : n ≤ x.length) (y : List α) (hy : n ≤ y.length) :
    ∀ k : Nat, ∃ yk,
      successive (fun y => saxpy_variant VECPLAY_HAS_NEON variant unroll_factor y x a n) k y =
        some yk ∧ yk.length = y.length := by
  intro k
  induction k with
  | zero => exact ⟨y, rfl, rfl⟩
  | succ k ih =>
    obtain ⟨yk, hrun, hlen⟩ := ih
    obtain ⟨y', hrun', hlen'⟩ :=
      saxpy_variant_some VECPLAY_HAS_NEON variant unroll_factor yk x a n hx (by omega)
    exact ⟨y', by simp [successive, hrun, hrun'], by omega⟩

/-- With commutative `+` and `*`, successive runs of any SAXPY variant leave what successive
runs of `saxpy_scalar` leave. -/
theorem successive_saxpy_variant_eq_scalar [AddCommMagma α] [CommMagma α]
    (VECPLAY_HAS_NEON : Bool) (variant : VariantKind) (unroll_factor : Int) (x : List α)
    (a : α) (n : Nat) (hx : n ≤ x.length) (y : List α) (hy : n ≤ y.length) :
    ∀ k : Nat,
      successive (fun y => saxpy_variant VECPLAY_HAS_NEON variant unroll_factor y x a n) k y =
        successive (fun y => saxpy_scalar y x a n) k y := by
  intro k
  induction k with
  | zero => rfl
  | succ k ih =>
    obtain ⟨yk, hrun, hlen⟩ :=
      successive_saxpy_variant_some VECPLAY_HAS_NEON variant unroll_factor x a n hx y hy k
    rw [successive, successive, ← ih, hrun]
    exact saxpy_variant_eq_scalar VECPLAY_HAS_NEON variant unroll_factor yk x a n hx
      (by omega)

/-- What `run_benchmark` returns for SAXPY, for every `config.iterations` below `2 ^ 64`: the
sum, from `0` in index order, of the `n` elements of `y` after `trip_count config.iterations`
successive runs of the selected variant with `a = 1.25` on the generated buffers. -/
theorem run_benchmark_saxpy [Add α] [Mul α] [Zero α] [OfScientific α] [Mul β] [Div β]
    [NatCast β] [OfScientific β] (VECPLAY_HAS_NEON : Bool) (src : RandomSource α)
    (time_seconds : β) (config : BenchConfig) (hk : config.kernel = KernelKind.Saxpy)
    (hit : config.iterations < 18446744073709551616) :
    ∃ x y yfin r, generated_buffers src config.n = some (x, y) ∧
      successive (fun y => saxpy_variant VECPLAY_HAS_NEON config.variant config.unroll_factor
        y x 1.25 config.n) (trip_count config.iterations) y = some yfin ∧
      yfin.length = config.n ∧
      run_benchmark VECPLAY_HAS_NEON src time_seconds config = some r ∧
      r.checksum = yfin.foldl (fun c val => c + val) 0 := by
  obtain ⟨x, y, hgen, hx, hy⟩ := generated_buffers_some src config.n
  obtain ⟨yfin, hrun, hlen⟩ := successive_saxpy_variant_some VECPLAY_HAS_NEON config.variant
    config.unroll_factor x (1.25 : α) config.n (by omega) y (by omega)
    (trip_count config.iterations)
  have hres : run_benchmark VECPLAY_HAS_NEON src time_seconds config =
      some ⟨time_seconds,
        if config.kernel = KernelKind.Saxpy then yfin.foldl (fun c val => c + val) 0 else 0,
        2.0 * (config.n : β) * (config.iterations : β) / (time_seconds * 1e9)⟩ := by
    rw [run_benchmark_eq VECPLAY_HAS_NEON src time_seconds config hit, hgen]
    simp only [Option.some_bind, Option.bind_eq_bind,
      successive_dispatch_saxpy VECPLAY_HAS_NEON config hk, hrun, Option.map_some']
  exact ⟨x, y, yfin, _, hgen, hrun, by omega, hres, by simp [hk]⟩

/-- What `run_benchmark` returns for the dot product, for every `config.iterations` below
`2 ^ 64`: the value `d` of one call of the selected variant on the generated buffers when the
loop makes a pass, and the initial `0` when it makes none. -/
theorem run_benchmark_dot [Add α] [Mul α] [Zero α] [OfScientific α] [Mul β] [Div β]
    [NatCast β] [OfScientific β] (VECPLAY_HAS_NEON : Bool) (src : RandomSource α)
    (time_seconds : β) (config : BenchConfig) (hk : config.kernel = KernelKind.Dot)
    (hit : config.iterations < 18446744073709551616) :
    ∃ x y d r, generated_buffers src config.n = some (x, y) ∧ x.length = config.n ∧
      y.length = config.n ∧
      dot_variant VECPLAY_HAS_NEON config.variant x y config.n = some d ∧
      run_benchmark VECPLAY_HAS_NEON src time_seconds config = some r ∧
      r.checksum = if trip_count config.iterations = 0 then 0 else d := by
  obtain ⟨x, y, hgen, hx, hy⟩ := generated_buffers_some src config.n
  obtain ⟨d, hd⟩ := dot_variant_some VECPLAY_HAS_NEON config.variant x y config.n (by omega)
    (by omega)
  have hres : run_benchmark VECPLAY_HAS_NEON src time_seconds config =
      some ⟨time_seconds,
        if config.kernel = KernelKind.Saxpy then y.foldl (fun c val => c + val) 0
        else if trip_count config.iterations = 0 then 0 else d,
        2.0 * (config.n : β) * (config.iterations : β) / (time_seconds * 1e9)⟩ := by
    rw [run_benchmark_eq VECPLAY_HAS_NEON src time_seconds config hit, hgen]
    simp only [Option.some_bind, Option.bind_eq_bind,
      successive_dispatch_dot VECPLAY_HAS_NEON config hk x y 1.25 d hd, Option.map_some']
  exact ⟨x, y, d, _, hgen, hx, hy, hd, hres, by simp [hk]⟩

/-- For SAXPY and `config.iterations` up to `2 ^ 31`, the checksum of `run_benchmark` is the
sum, from `0` in index order, of the `n` elements of `y` after exactly `config.iterations`
successive runs of the selected variant with `a = 1.25` on the generated buffers. -/
theorem run_benchmark_saxpy_of_le [Add α] [Mul α] [Zero α] [OfScientific α] [Mul β] [Div β]
    [NatCast β] [OfScientific β] (VECPLAY_HAS_NEON : Bool) (src : RandomSource α)
    (time_seconds : β) (config : BenchConfig) (hk : config.kernel = KernelKind.Saxpy)
    (hit : config.iterations ≤ 2147483648) :
    ∃ x y yfin r, generated_buffers src config.n = some (x, y) ∧
      successive (fun y => saxpy_variant VECPLAY_HAS_NEON config.variant config.unroll_factor
        y x 1.25 config.n) config.iterations y = some yfin ∧
      yfin.length = config.n ∧
      run_benchmark VECPLAY_HAS_NEON src time_seconds config = some r ∧
      r.checksum = yfin.foldl (fun c val => c + val) 0 := by
  have h := run_benchmark_saxpy VECPLAY_HAS_NEON src time_seconds config hk (by omega)
  rw [trip_count_of_le config.iterations hit] at h
  exact h

/-- The timed loop started from the generated buffers ends, for both kernels. -/
theorem successive_dispatch_some [Add α] [Mul α] [Zero α] (VECPLAY_HAS_NEON : Bool)
    (config : BenchConfig) (x y : List α) (alpha c : α) (hx : config.n ≤ x.length)
    (hy : config.n ≤ y.length) (k : Nat) :
    ∃ st, successive (run_benchmark_dispatch VECPLAY_HAS_NEON config x alpha) k (y, c) =
      some st := by
  cases hk : config.kernel with
  | Saxpy =>
    obtain ⟨yk, hrun, _⟩ := successive_saxpy_variant_some VECPLAY_HAS_NEON config.variant
      config.unroll_factor x alpha config.n hx y hy k
    exact ⟨(yk, c), by rw [successive_dispatch_saxpy VECPLAY_HAS_NEON config hk, hrun]; rfl⟩
  | Dot =>
    obtain ⟨d, hd⟩ := dot_variant_some VECPLAY_HAS_NEON config.variant x y config.n hx hy
    exact ⟨_, successive_dispatch_dot VECPLAY_HAS_NEON config hk x y alpha d hd k c⟩

/-- For `config.iterations` below `2 ^ 64`, `run_benchmark` returns; its `time_seconds` is the
measured time and its `gflops_per_sec` is `2.0 * n * iterations / (time_seconds * 1e9)`. -/
theorem run_benchmark_fields [Add α] [Mul α] [Zero α] [OfScientific α] [Mul β] [Div β]
    [NatCast β] [OfScientific β] (VECPLAY_HAS_NEON : Bool) (src : RandomSource α)
    (time_seconds : β) (config : BenchConfig)
    (hit : config.iterations < 18446744073709551616) :
    ∃ r, run_benchmark VECPLAY_HAS_NEON src time_seconds config = some r ∧
      r.time_seconds = time_seconds ∧
      r.gflops_per_sec =
        2.0 * (config.n : β) * (config.iterations : β) / (time_seconds * 1e9) := by
  obtain ⟨x, y, hgen, hx, hy⟩ := generated_buffers_some src config.n
  obtain ⟨st, hst⟩ := successive_dispatch_some VECPLAY_HAS_NEON config x y (1.25 : α) 0
    (by omega) (by omega) (trip_count config.iterations)
  have hres : run_benchmark VECPLAY_HAS_NEON src time_seconds config =
      some ⟨time_seconds,
        if config.kernel = KernelKind.Saxpy then st.1.foldl (fun c val => c + val) 0
        else st.2,
        2.0 * (config.n : β) * (config.iterations : β) / (time_seconds * 1e9)⟩ := by
    rw [run_benchmark_eq VECPLAY_HAS_NEON src time_seconds config hit, hgen]
    simp only [Option.some_bind, Option.bind_eq_bind, hst, Option.map_some']
  exact ⟨_, hres, rfl, rfl⟩

/-- The timed loop of two configurations with the same iteration count and the same dispatch
is the same. -/
theorem run_benchmark_loop_congr [Add α] [Mul α] [Zero α] (VECPLAY_HAS_NEON : Bool)
    (c1 c2 : BenchConfig) (x : List α) (alpha : α) (hit : c1.iterations = c2.iterations)
    (hd : ∀ state, run_benchmark_dispatch VECPLAY_HAS_NEON c1 x alpha state =
      run_benchmark_dispatch VECPLAY_HAS_NEON c2 x alpha state) :
    ∀ (fuel : Nat) (iter : Int) (state : List α × α),
      run_benchmark_loop VECPLAY_HAS_NEON c1 x alpha fuel iter state =
        run_benchmark_loop VECPLAY_HAS_NEON c2 x alpha fuel iter state := by
  intro fuel
  induction fuel with
  | zero => intro iter state; rfl
  | succ fuel ih =>
    intro iter state
    rw [run_benchmark_loop, run_benchmark_loop, hit, hd state]
    by_cases hc : int_to_size_t iter < c2.iterations
    · rw [if_pos hc, if_pos hc]
      cases run_benchmark_dispatch VECPLAY_HAS_NEON c2 x alpha state with
      | none => rfl
      | some s1 => exact ih _ s1
    · rw [if_neg hc, if_neg hc]

/-- `run_benchmark` does not depend on the unroll factor unless the kernel is SAXPY and the
variant is Manual. -/
theorem run_benchmark_unroll_factor [Add α] [Mul α] [Zero α] [OfScientific α] [Mul β] [Div β]
    [NatCast β] [OfScientific β] (VECPLAY_HAS_NEON : Bool) (src : RandomSource α)
    (time_seconds : β) (kernel : KernelKind) (variant : VariantKind) (n iterations : Nat)
    (csv : Bool) (uf1 uf2 : Int)
    (h : kernel = KernelKind.Dot ∨ variant = VariantKind.Scalar ∨ variant = VariantKind.Auto) :
    run_benchmark VECPLAY_HAS_NEON src time_seconds ⟨kernel, variant, n, iterations, csv, uf1⟩ =
      run_benchmark VECPLAY_HAS_NEON src time_seconds
        ⟨kernel, variant, n, iterations, csv, uf2⟩ := by
  have hd : ∀ (x : List α) (alpha : α) (state : List α × α),
      run_benchmark_dispatch VECPLAY_HAS_NEON ⟨kernel, variant, n, iterations, csv, uf1⟩ x
          alpha state =
        run_benchmark_dispatch VECPLAY_HAS_NEON ⟨kernel, variant, n, iterations, csv, uf2⟩ x
          alpha state := by
    intro x alpha state
    rcases h with rfl | rfl | rfl
    · rfl
    · cases kernel <;> rfl
    · cases kernel <;> rfl
  unfold run_benchmark
  simp only [run_benchmark_loop_congr VECPLAY_HAS_NEON
    ⟨kernel, variant, n, iterations, csv, uf1⟩ ⟨kernel, variant, n, iterations, csv, uf2⟩ _ _
    rfl (hd _ _)]

/-- Invariant of the fill loop started at `i` with the engine after `2 * i` draws: index
`i ≤ j < n` of `x` receives sample `2 * j` and of `y` sample `2 * j + 1`. -/
theorem run_benchmark_fill_spec (src : RandomSource α) (n : Nat) :
    ∀ (fuel i : Nat) (x y : List α), x.length = n → y.length = n → n - i < fuel →
      ∃ x' y', run_benchmark_fill src n fuel i (engine_after src (2 * i)) x y = some (x', y') ∧
        x'.length = n ∧ y'.length = n ∧
        (∀ j, x'[j]? = if i ≤ j ∧ j < n then some (sample src (2 * j)) else x[j]?) ∧
        (∀ j, y'[j]? = if i ≤ j ∧ j < n then some (sample src (2 * j + 1)) else y[j]?) := by
  intro fuel
  induction fuel with
  | zero => intro i x y _ _ h; omega
  | succ fuel ih =>
    intro i x y hx hy hfuel
    by_cases hin : i < n
    · have hrng : (src.dist (src.dist (engine_after src (2 * i))).2).2 =
          engine_after src (2 * (i + 1)) := rfl
      obtain ⟨x', y', hrun, hx', hy', hvx, hvy⟩ := ih (i + 1)
        (x.set i (sample src (2 * i))) (y.set i (sample src (2 * i + 1)))
        (by simpa using hx) (by simpa using hy) (by omega)
      refine ⟨x', y', ?_, hx', hy', ?_, ?_⟩
      · rw [run_benchmark_fill, if_pos hin]
        simp only [store_of_lt _ (show i < x.length by omega),
          store_of_lt _ (show i < y.length by omega), Option.some_bind, Option.bind_eq_bind]
        rw [hrng]
        exact hrun
      · intro j
        rw [hvx j]
        by_cases hji : j = i
        · subst hji
          have h1 : ¬ (j + 1 ≤ j ∧ j < n) := by omega
          have h2 : j ≤ j ∧ j < n := by omega
          rw [if_neg h1, if_pos h2]
          simp [show j < x.length by omega]
        · have hne : i ≠ j := fun h => hji h.symm
          by_cases hc : i ≤ j ∧ j < n
          · rw [if_pos hc, if_pos (by omega)]
          · rw [if_neg hc, if_neg (by omega), List.getElem?_set_ne hne]
      · intro j
        rw [hvy j]
        by_cases hji : j = i
        · subst hji
          have h1 : ¬ (j + 1 ≤ j ∧ j < n) := by omega
          have h2 : j ≤ j ∧ j < n := by omega
          rw [if_neg h1, if_pos h2]
          simp [show j < y.length by omega]
        · have hne : i ≠ j := fun h => hji h.symm
          by_cases hc : i ≤ j ∧ j < n
          · rw [if_pos hc, if_pos (by omega)]
          · rw [if_neg hc, if_neg (by omega), List.getElem?_set_ne hne]
    · refine ⟨x, y, by rw [run_benchmark_fill, if_neg hin], hx, hy, ?_, ?_⟩
      · intro j
        rw [if_neg (by omega)]
      · intro j
        rw [if_neg (by omega)]

/-- The generated buffers: `x[i]` is sample `2 * i` and `y[i]` sample `2 * i + 1`. -/
theorem generated_buffers_eq [Zero α] (src : RandomSource α) (n : Nat) :
    generated_buffers src n =
      some ((List.range n).map (fun i => sample src (2 * i)),
        (List.range n).map (fun i => sample src (2 * i + 1))) := by
  obtain ⟨x', y', hrun, hx', hy', hvx, hvy⟩ := run_benchmark_fill_spec src n (n + 1) 0
    (List.replicate n 0) (List.replicate n 0) (by simp) (by simp) (by omega)
  have hx : x' = (List.range n).map (fun i => sample src (2 * i)) := by
    apply List.ext_getElem?
    intro j
    rw [hvx j]
    by_cases hj : j < n
    · simp [hj]
    · have h1 : (List.replicate n (0 : α)).length ≤ j := by simp; omega
      have h2 : (List.range n).length ≤ j := by simp; omega
      simp [hj, List.getElem?_eq_none h1, List.getElem?_eq_none h2]
  have hy : y' = (List.range n).map (fun i => sample src (2 * i + 1)) := by
    apply List.ext_getElem?
    intro j
    rw [hvy j]
    by_cases hj : j < n
    · simp [hj]
    · have h1 : (List.replicate n (0 : α)).length ≤ j := by simp; omega
      have h2 : (List.range n).length ≤ j := by simp; omega
      simp [hj, List.getElem?_eq_none h1, List.getElem?_eq_none h2]
  rw [← hx, ← hy]
  exact hrun

/-- The first `n` elements of a list tabulated over `range m`, for `n ≤ m`. -/
theorem take_map_range (f : Nat → α) (n m : Nat) (h : n ≤ m) :
    ((List.range m).map f).take n = (List.range n).map f := by
  apply List.ext_getElem?
  intro j
  by_cases hj : j < n
  · have hjm : j < m := by omega
    simp [List.getElem?_take, hj, hjm]
  · have h2 : (List.range n).length ≤ j := by simp; omega
    simp [List.getElem?_take, hj, List.getElem?_eq_none h2]

/-- Over the rationals, `k` successive runs of `saxpy_scalar` with `a = 1.25` on `x = [1/2]`,
`y = [3/4]` leave `[3/4 + k * 5/8]`. -/
theorem successive_saxpy_scalar_example (k : Nat) :
    successive (fun y => saxpy_scalar y [1 / 2] (1.25 : ℚ) 1) k [3 / 4] =
      some [3 / 4 + (k : ℚ) * (5 / 8)] := by
  obtain ⟨yk, hrun, hlen, hval⟩ :=
    successive_saxpy_scalar_spec [1 / 2] [3 / 4] (1.25 : ℚ) 1 (by decide) (by decide) k
  rw [hrun]
  congr 1
  apply List.ext_getElem?
  intro j
  rw [hval j]
  cases j with
  | zero => norm_num; ring
  | succ j => simp

end DriverTheorems

/-! ## The claims -/

section Claims

variable {α : Type}

/-- C1: for buffers `x`, `y` holding at least `n` elements, `saxpy_scalar(y, x, a, n)` returns,
and the `y` it leaves has the length of the old `y`, holds `a * x[i] + y[i]` (old `y`) at
every index `i < n` and the old element at every index `i ≥ n`. The buffer `x` is an input
that the kernel only reads (`const float *`): it has no new value to speak of. -/
theorem saxpy_scalar_postcondition [Add α] [Mul α] (y x : List α) (a : α) (n : Nat)
    (hx : n ≤ x.length) (hy : n ≤ y.length) :
    ∃ y', saxpy_scalar y x a n = some y' ∧ y'.length = y.length ∧
      (∀ i (hi : i < n), y'[i]? = some (a * x[i] + y[i])) ∧
      (∀ i, n ≤ i → y'[i]? = y[i]?) := by
  obtain ⟨y', hrun, hlen, hval⟩ := saxpy_scalar_spec y x a n hx hy
  refine ⟨y', hrun, hlen, ?_, ?_⟩
  · intro i hi
    rw [hval i, if_pos hi, saxpy_elem_of_lt a (by omega) (by omega)]
  · intro i hi
    rw [hval i, if_neg (by omega)]

/-- Witness of C1: `y = [10, 20, 30]`, `x = [1, 2]`, `a = 3`, `n = 2` over the integers. -/
theorem saxpy_scalar_postcondition_witness :
    ∃ y', saxpy_scalar [10, 20, 30] [1, 2] (3 : Int) 2 = some y' ∧ y'.length = 3 ∧
      y'[0]? = some 13 ∧ y'[1]? = some 26 ∧ y'[2]? = some 30 := by
  obtain ⟨y', hrun, hlen, hval, hrest⟩ :=
    saxpy_scalar_postcondition [10, 20, 30] [1, 2] (3 : Int) 2 (by decide) (by decide)
  exact ⟨y', hrun, hlen, hval 0 (by decide), hval 1 (by decide), hrest 2 (by decide)⟩

/-- C2: for buffers of at least `n` elements, `dot_scalar(x, y, n)` returns the left-to-right
accumulation `((0 + x[0]*y[0]) + x[1]*y[1]) + ... + x[n-1]*y[n-1]`: the left fold of `+`,
from `0`, over the first `n` products `x[i] * y[i]`. -/
theorem dot_scalar_eq_accumulation [Add α] [Mul α] [Zero α] (x y : List α) (n : Nat)
    (hx : n ≤ x.length) (hy : n ≤ y.length) :
    dot_scalar x y n =
      some (((List.zipWith (fun u v => u * v) x y).take n).foldl (fun s p => s + p) 0) :=
  dot_scalar_spec x y n hx hy

/-- Witness of C2: `x = [1, 2, 3]`, `y = [4, 5, 6]`, `n = 3` over the integers. -/
theorem dot_scalar_eq_accumulation_witness :
    dot_scalar [1, 2, 3] [4, 5, (6 : Int)] 3 = some (((0 + 1 * 4) + 2 * 5) + 3 * 6) ∧
    dot_scalar [1, 2, 3] [4, 5, (6 : Int)] 3 =
      some (((List.zipWith (fun u v => u * v) [1, 2, 3] [4, 5, (6 : Int)]).take 3).foldl
        (fun s p => s + p) 0) :=
  ⟨by decide, dot_scalar_eq_accumulation [1, 2, 3] [4, 5, (6 : Int)] 3 (by decide) (by decide)⟩

/-- C3: on the vector (NEON) path, for every unroll factor `U` in `{1, 2, 4, 8}`, every `n`
(divisible by `U * 4` or not) and buffers of at least `n` elements,
`saxpy_manual_unrolled(y, x, a, n, U)` returns and leaves exactly the buffer that
`saxpy_scalar(y, x, a, n)` leaves: every index `i < n` holds `a * x[i] + y[i]` (old `y`),
written from the old value, and every other index is untouched. The vector lanes compute
`y[i] + x[i] * a`, so the equality uses that `+` and `*` are commutative (as they are for
IEEE floats); associativity is not used. -/
theorem saxpy_manual_unrolled_eq_scalar [AddCommMagma α] [CommMagma α] (y x : List α) (a : α)
    (n : Nat) (U : Int) (hU : U = 1 ∨ U = 2 ∨ U = 4 ∨ U = 8) (hx : n ≤ x.length)
    (hy : n ≤ y.length) :
    saxpy_manual_unrolled true y x a n U = saxpy_scalar y x a n ∧
    ∃ y', saxpy_manual_unrolled true y x a n U = some y' ∧ y'.length = y.length ∧
      (∀ i (hi : i < n), y'[i]? = some (a * x[i] + y[i])) ∧
      (∀ i, n ≤ i → y'[i]? = y[i]?) := by
  have heq : saxpy_manual_unrolled true y x a n U = saxpy_scalar y x a n := by
    rcases hU with rfl | rfl | rfl | rfl
    · simpa [saxpy_manual_unrolled] using
        saxpy_manual_impl_eq_scalar 1 (by decide) y x a n hx hy
    · simpa [saxpy_manual_unrolled] using
        saxpy_manual_impl_eq_scalar 2 (by decide) y x a n hx hy
    · simpa [saxpy_manual_unrolled] using
        saxpy_manual_impl_eq_scalar 4 (by decide) y x a n hx hy
    · simpa [saxpy_manual_unrolled] using
        saxpy_manual_impl_eq_scalar 8 (by decide) y x a n hx hy
  refine ⟨heq, ?_⟩
  obtain ⟨y', hrun, hlen, hval⟩ := saxpy_scalar_spec y x a n hx hy
  refine ⟨y', by rw [heq, hrun], hlen, ?_, ?_⟩
  · intro i hi
    rw [hval i, if_pos hi, saxpy_elem_of_lt a (by omega) (by omega)]
  · intro i hi
    rw [hval i, if_neg (by omega)]

/-- Witness of C3: `n = 11` with unroll factor 2 (one block of 8 and a remainder of 3). -/
theorem saxpy_manual_unrolled_eq_scalar_witness :
    saxpy_manual_unrolled true [0, 1, 2, 3, 4, 5, 6, 7, 8, 9, 10]
        [1, 1, 1, 1, 1, 1, 1, 1, 1, 1, 1] (3 : Int) 11 2 =
      some [3, 4, 5, 6, 7, 8, 9, 10, 11, 12, 13] ∧
    saxpy_manual_unrolled true [0, 1, 2, 3, 4, 5, 6, 7, 8, 9, 10]
        [1, 1, 1, 1, 1, 1, 1, 1, 1, 1, 1] (3 : Int) 11 2 =
      saxpy_scalar [0, 1, 2, 3, 4, 5, 6, 7, 8, 9, 10] [1, 1, 1, 1, 1, 1, 1, 1, 1, 1, 1]
        (3 : Int) 11 :=
  ⟨by decide, (saxpy_manual_unrolled_eq_scalar [0, 1, 2, 3, 4, 5, 6, 7, 8, 9, 10]
    [1, 1, 1, 1, 1, 1, 1, 1, 1, 1, 1] (3 : Int) 11 2 (by decide) (by decide) (by decide)).1⟩

/-- C6: for an unroll factor outside `{1, 2, 4, 8}` (3, 0, -1, 100, ...), on either build,
`saxpy_manual_unrolled(y, x, a, n, factor)` does what `saxpy_manual_unrolled(y, x, a, n, 2)`
does, which is what `saxpy_manual(y, x, a, n)` does; and for buffers of at least `n` elements
it returns a buffer (there is no error path). -/
theorem saxpy_manual_unrolled_fallback [Add α] [Mul α] (VECPLAY_HAS_NEON : Bool)
    (y x : List α) (a : α) (n : Nat) (factor : Int)
    (hf : factor ≠ 1 ∧ factor ≠ 2 ∧ factor ≠ 4 ∧ factor ≠ 8) :
    saxpy_manual_unrolled VECPLAY_HAS_NEON y x a n factor =
      saxpy_manual_unrolled VECPLAY_HAS_NEON y x a n 2 ∧
    saxpy_manual_unrolled VECPLAY_HAS_NEON y x a n 2 = saxpy_manual VECPLAY_HAS_NEON y x a n ∧
    (n ≤ x.length → n ≤ y.length →
      ∃ y', saxpy_manual_unrolled VECPLAY_HAS_NEON y x a n factor = some y' ∧
        y'.length = y.length) := by
  obtain ⟨h1, h2, h4, h8⟩ := hf
  have heq : saxpy_manual_unrolled VECPLAY_HAS_NEON y x a n factor =
      saxpy_manual_unrolled VECPLAY_HAS_NEON y x a n 2 := by
    simp [saxpy_manual_unrolled, h1, h2, h4, h8]
  refine ⟨heq, rfl, ?_⟩
  intro hx hy
  rw [heq]
  cases VECPLAY_HAS_NEON with
  | false =>
    obtain ⟨y', hrun, hlen, _⟩ := saxpy_scalar_spec y x a n hx hy
    exact ⟨y', by simpa [saxpy_manual_unrolled] using hrun, hlen⟩
  | true =>
    obtain ⟨y', hrun, hlen, _⟩ := saxpy_manual_impl_spec 2 (by decide) y x a n hx hy
    exact ⟨y', by simpa [saxpy_manual_unrolled] using hrun, hlen⟩

/-- Witness of C6: unroll factor 3 on the vector path, `n = 9`. -/
theorem saxpy_manual_unrolled_fallback_witness :
    saxpy_manual_unrolled true [0, 1, 2, 3, 4, 5, 6, 7, 8] [1, 2, 1, 2, 1, 2, 1, 2, 1]
        (3 : Int) 9 3 =
      some [3, 7, 5, 9, 7, 11, 9, 13, 11] ∧
    saxpy_manual_unrolled true [0, 1, 2, 3, 4, 5, 6, 7, 8] [1, 2, 1, 2, 1, 2, 1, 2, 1]
        (3 : Int) 9 3 =
      saxpy_manual_unrolled true [0, 1, 2, 3, 4, 5, 6, 7, 8] [1, 2, 1, 2, 1, 2, 1, 2, 1]
        (3 : Int) 9 2 :=
  ⟨by decide, (saxpy_manual_unrolled_fallback true [0, 1, 2, 3, 4, 5, 6, 7, 8]
    [1, 2, 1, 2, 1, 2, 1, 2, 1] (3 : Int) 9 3 (by decide)).1⟩

/-- C7: `saxpy_auto` leaves `y` exactly as `saxpy_scalar` does and `dot_auto` returns exactly
what `dot_scalar` returns (the same loop, the same accumulation order), for all arguments;
for buffers of at least `n` elements all four return. -/
theorem auto_eq_scalar [Add α] [Mul α] [Zero α] (y x : List α) (a : α) (n : Nat) :
    saxpy_auto y x a n = saxpy_scalar y x a n ∧ dot_auto x y n = dot_scalar x y n ∧
    (n ≤ x.length → n ≤ y.length →
      (∃ y', saxpy_auto y x a n = some y') ∧ ∃ d, dot_auto x y n = some d) := by
  have h1 : saxpy_auto y x a n = saxpy_scalar y x a n := saxpy_auto_loop_eq x a n (n + 1) 0 y
  have h2 : dot_auto x y n = dot_scalar x y n := dot_auto_loop_eq x y n (n + 1) 0 0
  refine ⟨h1, h2, ?_⟩
  intro hx hy
  obtain ⟨y', hrun, _⟩ := saxpy_scalar_spec y x a n hx hy
  exact ⟨⟨y', by rw [h1, hrun]⟩, ⟨_, by rw [h2, dot_scalar_spec x y n hx hy]⟩⟩

/-- Witness of C7: `x = [1, 2, 3]`, `y = [4, 5, 6]`, `a = 2`, `n = 3` over the integers. -/
theorem auto_eq_scalar_witness :
    saxpy_auto [4, 5, 6] [1, 2, 3] (2 : Int) 3 = some [6, 9, 12] ∧
    dot_auto [1, 2, 3] [4, 5, (6 : Int)] 3 = some 32 ∧
    (∃ y', saxpy_auto [4, 5, 6] [1, 2, 3] (2 : Int) 3 = some y') ∧
    ∃ d, dot_auto [1, 2, 3] [4, 5, (6 : Int)] 3 = some d :=
  ⟨by decide, by decide,
    (auto_eq_scalar [4, 5, 6] [1, 2, 3] (2 : Int) 3).2.2 (by decide) (by decide)⟩

/-- C4: with exact addition (associative, commutative, `0` neutral), on the vector (NEON) path
`dot_manual(x, y, n)` returns, and returns what `dot_scalar(x, y, n)` returns, for every `n`
(a multiple of 4 or not) and buffers of at least `n` elements. -/
theorem dot_manual_eq_dot_scalar [AddCommMonoid α] [Mul α] (x y : List α) (n : Nat)
    (hx : n ≤ x.length) (hy : n ≤ y.length) :
    dot_manual true x y n = dot_scalar x y n ∧
    dot_manual true x y n = some ((List.zipWith (fun u v => u * v) x y).take n).sum := by
  have h := dot_manual_eq_scalar_of_exact x y n hx hy
  refine ⟨h, ?_⟩
  rw [h, dot_scalar_spec x y n hx hy, foldl_add_eq_sum, zero_add]

/-- Witness of C4: `n = 7` (one 4-lane block and a remainder of 3) over the integers. -/
theorem dot_manual_eq_dot_scalar_witness :
    dot_manual true [1, 2, 3, 4, 5, 6, 7] [7, 6, 5, 4, 3, 2, (1 : Int)] 7 = some 84 ∧
    dot_manual true [1, 2, 3, 4, 5, 6, 7] [7, 6, 5, 4, 3, 2, (1 : Int)] 7 =
      dot_scalar [1, 2, 3, 4, 5, 6, 7] [7, 6, 5, 4, 3, 2, (1 : Int)] 7 :=
  ⟨by decide, (dot_manual_eq_dot_scalar [1, 2, 3, 4, 5, 6, 7] [7, 6, 5, 4, 3, 2, (1 : Int)] 7
    (by decide) (by decide)).1⟩

/-- C8: `k` applications of `saxpy_scalar(y, x, a, n)` in succession to the same buffers, with
no reset of `y`, return; application `k + 1` leaves `a * x[i] + v` where `v` is what
application `k` left at `i`; and with exact arithmetic the buffer after `k` applications holds
`y0[i] + k * a * x[i]` at every `i < n`. In particular `a = 1`, `x = [1, 1]`, `y = [0, 0]`,
`k = 3` gives `y = [3, 3]`. -/
theorem saxpy_scalar_compounds [Semiring α] (x y0 : List α) (a : α) (n : Nat)
    (hx : n ≤ x.length) (hy : n ≤ y0.length) (k : Nat) :
    (∃ yk yk1, successive (fun y => saxpy_scalar y x a n) k y0 = some yk ∧
      successive (fun y => saxpy_scalar y x a n) (k + 1) y0 = some yk1 ∧
      (∀ i (hi : i < n), ∃ v, yk[i]? = some v ∧ yk1[i]? = some (a * x[i] + v)) ∧
      (∀ i (hi : i < n), yk[i]? = some (y0[i] + (k : α) * a * x[i]))) ∧
    successive (fun y => saxpy_scalar y [1, 1] (1 : α) 2) 3 [0, 0] = some [3, 3] := by
  constructor
  · obtain ⟨yk, hrun, hlen, hval⟩ := successive_saxpy_scalar_spec x y0 a n hx hy k
    obtain ⟨yk1, hrun1, hlen1, hval1⟩ := saxpy_scalar_spec yk x a n hx (by omega)
    refine ⟨yk, yk1, hrun, by simp [successive, hrun, hrun1], ?_, ?_⟩
    · intro i hi
      have hi1 : i < yk.length := by omega
      refine ⟨yk[i], List.getElem?_eq_getElem hi1, ?_⟩
      rw [hval1 i, if_pos hi, saxpy_elem_of_lt a (by omega) hi1]
    · intro i hi
      have h1 : i < x.length := by omega
      have h2 : i < y0.length := by omega
      rw [hval i, if_pos hi]
      simp [h1, h2]
  · simp [successive, saxpy_scalar, saxpy_scalar_loop, load, store]
    norm_num

/-- Witness of C8: `x = [1, 2]`, `y0 = [5, 7, 9]`, `a = 3`, `n = 2`, `k = 4` over the
integers. -/
theorem saxpy_scalar_compounds_witness :
    successive (fun y => saxpy_scalar y [1, 2] (3 : Int) 2) 4 [5, 7, 9] = some [17, 31, 9] ∧
    successive (fun y => saxpy_scalar y [1, 1] (1 : Int) 2) 3 [0, 0] = some [3, 3] :=
  ⟨by decide, (saxpy_scalar_compounds [1, 2] [5, 7, 9] (3 : Int) 2 (by decide) (by decide) 4).2⟩

/-- C5: with exact arithmetic (`+` a commutative monoid, `*` commutative), for every kernel,
`n`, iteration count (a `std::size_t`), unroll factor and build, `run_benchmark` returns for
the three variants Scalar, Auto and Manual, on the same generated inputs, and the three
checksums are one and the same value. -/
theorem run_benchmark_variants_agree [AddCommMonoid α] [CommMagma α] [OfScientific α]
    {β : Type} [Mul β] [Div β] [NatCast β] [OfScientific β] (VECPLAY_HAS_NEON : Bool)
    (src : RandomSource α) (time_seconds : β) (kernel : KernelKind) (n iterations : Nat)
    (csv : Bool) (unroll_factor : Int) (hit : iterations < 18446744073709551616) :
    ∃ c : α, ∀ variant : VariantKind, ∃ r,
      run_benchmark VECPLAY_HAS_NEON src time_seconds
        ⟨kernel, variant, n, iterations, csv, unroll_factor⟩ = some r ∧ r.checksum = c := by
  obtain ⟨x0, y0, hgen0, hx0, hy0⟩ := generated_buffers_some src n
  cases kernel with
  | Saxpy =>
    obtain ⟨ys, hs, _⟩ := successive_saxpy_variant_some VECPLAY_HAS_NEON VariantKind.Scalar
      unroll_factor x0 (1.25 : α) n (by omega) y0 (by omega) (trip_count iterations)
    refine ⟨ys.foldl (fun c val => c + val) 0, ?_⟩
    intro variant
    obtain ⟨x, y, yfin, r, hgen, hrun, _, hres, hsum⟩ :=
      run_benchmark_saxpy VECPLAY_HAS_NEON src time_seconds
        ⟨KernelKind.Saxpy, variant, n, iterations, csv, unroll_factor⟩ rfl hit
    refine ⟨r, hres, ?_⟩
    rw [hgen0] at hgen
    obtain ⟨rfl, rfl⟩ : x0 = x ∧ y0 = y := by simpa using hgen
    have h1 := successive_saxpy_variant_eq_scalar VECPLAY_HAS_NEON variant unroll_factor x0
      (1.25 : α) n (by omega) y0 (by omega) (trip_count iterations)
    have h2 := successive_saxpy_variant_eq_scalar VECPLAY_HAS_NEON VariantKind.Scalar
      unroll_factor x0 (1.25 : α) n (by omega) y0 (by omega) (trip_count iterations)
    simp only at hrun
    rw [h1] at hrun
    rw [h2, hrun] at hs
    obtain rfl : yfin = ys := by simpa using hs
    exact hsum
  | Dot =>
    obtain ⟨ds, hds⟩ : ∃ d, dot_scalar x0 y0 n = some d :=
      ⟨_, dot_scalar_spec x0 y0 n (by omega) (by omega)⟩
    refine ⟨if trip_count iterations = 0 then 0 else ds, ?_⟩
    intro variant
    obtain ⟨x, y, d, r, hgen, _, _, hd, hres, hsum⟩ :=
      run_benchmark_dot VECPLAY_HAS_NEON src time_seconds
        ⟨KernelKind.Dot, variant, n, iterations, csv, unroll_factor⟩ rfl hit
    refine ⟨r, hres, ?_⟩
    rw [hgen0] at hgen
    obtain ⟨rfl, rfl⟩ : x0 = x ∧ y0 = y := by simpa using hgen
    simp only at hd
    rw [dot_variant_eq_scalar VECPLAY_HAS_NEON variant x0 y0 n (by omega) (by omega),
      hds] at hd
    obtain rfl : ds = d := by simpa using hd
    exact hsum

/-- Witness of C5: SAXPY with `n = 5`, 3 iterations and unroll factor 7 on the vector path,
over the rationals: the three variants return the checksum `95 / 8`. -/
theorem run_benchmark_variants_agree_witness :
    (run_benchmark true counter_source (1 : ℚ)
        ⟨KernelKind.Saxpy, VariantKind.Manual, 5, 3, false, 7⟩).map (fun r => r.checksum) =
      some (95 / 8) ∧
    ∃ c : ℚ, ∀ variant : VariantKind, ∃ r,
      run_benchmark true counter_source (1 : ℚ)
        ⟨KernelKind.Saxpy, variant, 5, 3, false, 7⟩ = some r ∧ r.checksum = c :=
  ⟨by decide!, run_benchmark_variants_agree true counter_source (1 : ℚ) KernelKind.Saxpy 5 3
    false 7 (by decide)⟩

/-- C10: for `kernel = Dot`, every variant, every `n` and either build, the generated buffers
`x`, `y` and the value `d` of one call of the selected dot-product variant on them are such
that, for every iteration count `iterations ≥ 1` (a `std::size_t`), `run_benchmark` returns
and its checksum is `d`: the same for every such iteration count. -/
theorem run_benchmark_dot_checksum [Add α] [Mul α] [Zero α] [OfScientific α] {β : Type}
    [Mul β] [Div β] [NatCast β] [OfScientific β] (VECPLAY_HAS_NEON : Bool)
    (src : RandomSource α) (time_seconds : β) (variant : VariantKind) (n : Nat) (csv : Bool)
    (unroll_factor : Int) :
    ∃ x y d, generated_buffers src n = some (x, y) ∧
      dot_variant VECPLAY_HAS_NEON variant x y n = some d ∧
      ∀ iterations : Nat, 1 ≤ iterations → iterations < 18446744073709551616 →
        ∃ r, run_benchmark VECPLAY_HAS_NEON src time_seconds
          ⟨KernelKind.Dot, variant, n, iterations, csv, unroll_factor⟩ = some r ∧
          r.checksum = d := by
  obtain ⟨x0, y0, hgen0, hx0, hy0⟩ := generated_buffers_some src n
  obtain ⟨d0, hd0⟩ := dot_variant_some VECPLAY_HAS_NEON variant x0 y0 n (by omega) (by omega)
  refine ⟨x0, y0, d0, hgen0, hd0, ?_⟩
  intro iterations h1 hit
  obtain ⟨x, y, d, r, hgen, _, _, hd, hres, hsum⟩ :=
    run_benchmark_dot VECPLAY_HAS_NEON src time_seconds
      ⟨KernelKind.Dot, variant, n, iterations, csv, unroll_factor⟩ rfl hit
  refine ⟨r, hres, ?_⟩
  rw [hgen0] at hgen
  obtain ⟨rfl, rfl⟩ : x0 = x ∧ y0 = y := by simpa using hgen
  simp only at hd
  rw [hd0] at hd
  obtain rfl : d0 = d := by simpa using hd
  rw [hsum, if_neg (trip_count_pos iterations h1 hit)]

/-- Witness of C10: the manual dot product with `n = 5` on the vector path over the rationals,
at 1 and at 3 iterations: the checksum is `5 / 4` both times. -/
theorem run_benchmark_dot_checksum_witness :
    (run_benchmark true counter_source (1 : ℚ)
        ⟨KernelKind.Dot, VariantKind.Manual, 5, 3, false, 2⟩).map (fun r => r.checksum) =
      some (5 / 4) ∧
    ∃ x y d, generated_buffers counter_source 5 = some (x, y) ∧
      dot_variant true VariantKind.Manual x y 5 = some d ∧
      (∃ r, run_benchmark true counter_source (1 : ℚ)
        ⟨KernelKind.Dot, VariantKind.Manual, 5, 1, false, 2⟩ = some r ∧ r.checksum = d) ∧
      ∃ r, run_benchmark true counter_source (1 : ℚ)
        ⟨KernelKind.Dot, VariantKind.Manual, 5, 3, false, 2⟩ = some r ∧ r.checksum = d := by
  refine ⟨by decide!, ?_⟩
  obtain ⟨x, y, d, hgen, hd, hall⟩ :=
    run_benchmark_dot_checksum true counter_source (1 : ℚ) VariantKind.Manual 5 false 2
  exact ⟨x, y, d, hgen, hd, hall 1 (by decide) (by decide), hall 3 (by decide) (by decide)⟩

/-- C13: `parseKernel` accepts exactly two names: `"saxpy"` gives `Saxpy`, `"dot"` gives
`Dot`, and every other string (`"foo"`, `""`, `"SAXPY"`, `"scalar"`, ...) raises the
unrecognized-identifier error `Unknown kernel name: <name>`; it raises if and only if the name
is neither `"saxpy"` nor `"dot"`. -/
theorem parseKernel_accepts_exactly :
    parseKernel "saxpy" = .ok KernelKind.Saxpy ∧ parseKernel "dot" = .ok KernelKind.Dot ∧
    (∀ name : String, name ≠ "saxpy" → name ≠ "dot" →
      parseKernel name = .error ("Unknown kernel name: " ++ name)) ∧
    (∀ name : String, (∃ e, parseKernel name = .error e) ↔ (name ≠ "saxpy" ∧ name ≠ "dot")) ∧
    parseKernel "foo" = .error "Unknown kernel name: foo" ∧
    parseKernel "" = .error "Unknown kernel name: " ∧
    parseKernel "SAXPY" = .error "Unknown kernel name: SAXPY" ∧
    parseKernel "scalar" = .error "Unknown kernel name: scalar" := by
  have hne : ∀ name : String, name ≠ "saxpy" → name ≠ "dot" →
      parseKernel name = .error ("Unknown kernel name: " ++ name) := by
    intro name h1 h2
    simp [parseKernel, h1, h2]
  refine ⟨by rfl, by rfl, hne, ?_, by rfl, by rfl, by rfl, by rfl⟩
  intro name
  constructor
  · rintro ⟨e, he⟩
    by_cases h1 : name = "saxpy"
    · subst h1; simp [parseKernel] at he
    by_cases h2 : name = "dot"
    · subst h2; simp [parseKernel] at he
    exact ⟨h1, h2⟩
  · rintro ⟨h1, h2⟩
    exact ⟨_, hne name h1 h2⟩

/-- Witness of C13: the name `"foo"`. -/
theorem parseKernel_accepts_exactly_witness :
    parseKernel "foo" = .error ("Unknown kernel name: " ++ "foo") ∧
    ∃ e, parseKernel "foo" = .error e :=
  ⟨parseKernel_accepts_exactly.2.2.1 "foo" (by decide) (by decide),
    (parseKernel_accepts_exactly.2.2.2.1 "foo").2 ⟨by decide, by decide⟩⟩

/-- C14: `parseVariant` accepts exactly three names: `"scalar"` gives `Scalar`, `"auto"` gives
`Auto`, `"manual"` gives `Manual`, and every other string (`"bar"`, `""`, `"Manual"`, `"dot"`,
...) raises the unrecognized-identifier error `Unknown variant name: <name>`; it raises if
and only if the name is none of the three. -/
theorem parseVariant_accepts_exactly :
    parseVariant "scalar" = .ok VariantKind.Scalar ∧
    parseVariant "auto" = .ok VariantKind.Auto ∧
    parseVariant "manual" = .ok VariantKind.Manual ∧
    (∀ name : String, name ≠ "scalar" → name ≠ "auto" → name ≠ "manual" →
      parseVariant name = .error ("Unknown variant name: " ++ name)) ∧
    (∀ name : String, (∃ e, parseVariant name = .error e) ↔
      (name ≠ "scalar" ∧ name ≠ "auto" ∧ name ≠ "manual")) ∧
    parseVariant "bar" = .error "Unknown variant name: bar" ∧
    parseVariant "" = .error "Unknown variant name: " ∧
    parseVariant "Manual" = .error "Unknown variant name: Manual" ∧
    parseVariant "dot" = .error "Unknown variant name: dot" := by
  have hne : ∀ name : String, name ≠ "scalar" → name ≠ "auto" → name ≠ "manual" →
      parseVariant name = .error ("Unknown variant name: " ++ name) := by
    intro name h1 h2 h3
    simp [parseVariant, h1, h2, h3]
  refine ⟨by rfl, by rfl, by rfl, hne, ?_, by rfl, by rfl, by rfl, by rfl⟩
  intro name
  constructor
  · rintro ⟨e, he⟩
    by_cases h1 : name = "scalar"
    · subst h1; simp [parseVariant] at he
    by_cases h2 : name = "auto"
    · subst h2; simp [parseVariant] at he
    by_cases h3 : name = "manual"
    · subst h3; simp [parseVariant] at he
    exact ⟨h1, h2, h3⟩
  · rintro ⟨h1, h2, h3⟩
    exact ⟨_, hne name h1 h2 h3⟩

/-- Witness of C14: the name `"bar"`. -/
theorem parseVariant_accepts_exactly_witness :
    parseVariant "bar" = .error ("Unknown variant name: " ++ "bar") ∧
    ∃ e, parseVariant "bar" = .error e :=
  ⟨parseVariant_accepts_exactly.2.2.2.1 "bar" (by decide) (by decide) (by decide),
    (parseVariant_accepts_exactly.2.2.2.2.1 "bar").2 ⟨by decide, by decide, by decide⟩⟩

/-- C15, evaluated on the build without NEON: the bodies of `saxpy_manual_unrolled` (for every
unroll factor), `saxpy_manual` and `dot_manual`, which stand inside `namespace vecplay`, are
calls of `saxpy_scalar` and `dot_scalar` and give exactly their results; but the fallback of
the template `saxpy_manual_impl`, the unqualified call `saxpy_scalar(y, x, a, n)` from an
unnamed namespace at global scope, names no function and has no result, for every `UNROLL`
and all arguments, where `saxpy_scalar` itself returns (here `[3, 7, 5, 9, 7]`). -/
theorem manual_without_neon [Add α] [Mul α] [Zero α] (y x : List α) (a : α) (n : Nat)
    (unroll_factor : Int) (UNROLL : Nat) :
    saxpy_manual_impl false UNROLL y x a n = none ∧
    saxpy_manual_unrolled false y x a n unroll_factor = saxpy_scalar y x a n ∧
    saxpy_manual false y x a n = saxpy_scalar y x a n ∧
    dot_manual false x y n = dot_scalar x y n ∧
    saxpy_manual_impl false 4 [0, 1, 2, 3, 4] [1, 2, 1, 2, 1] (3 : Int) 5 = none ∧
    saxpy_scalar [0, 1, 2, 3, 4] [1, 2, 1, 2, 1] (3 : Int) 5 = some [3, 7, 5, 9, 7] := by
  refine ⟨?_, ?_, ?_, ?_, by decide, by decide⟩
  · simp [saxpy_manual_impl]
  · simp [saxpy_manual_unrolled]
  · simp [saxpy_manual, saxpy_manual_unrolled]
  · simp [dot_manual]

/-- C11: with `n = 0`, for every kernel, variant, unroll factor, iteration count (a
`std::size_t`) and build, `run_benchmark` returns a result and its checksum is `0`; every dot
variant returns `0` for `n = 0` and every SAXPY variant leaves `y` as it is, whatever the
buffers. The only arithmetic fact used is `0 + 0 = 0`, for the horizontal add of the zero
accumulator of `dot_manual` on the vector path. -/
theorem degenerate_n_zero [Add α] [Mul α] [Zero α] [OfScientific α] {β : Type} [Mul β]
    [Div β] [NatCast β] [OfScientific β] (h0 : (0 : α) + 0 = 0) (VECPLAY_HAS_NEON : Bool)
    (src : RandomSource α) (time_seconds : β) (kernel : KernelKind) (variant : VariantKind)
    (iterations : Nat) (csv : Bool) (unroll_factor : Int)
    (hit : iterations < 18446744073709551616) (x y : List α) (a : α) :
    (∃ r, run_benchmark VECPLAY_HAS_NEON src time_seconds
        ⟨kernel, variant, 0, iterations, csv, unroll_factor⟩ = some r ∧ r.checksum = 0) ∧
    dot_scalar x y 0 = some 0 ∧ dot_auto x y 0 = some 0 ∧
    dot_manual VECPLAY_HAS_NEON x y 0 = some 0 ∧
    saxpy_scalar y x a 0 = some y ∧ saxpy_auto y x a 0 = some y ∧
    saxpy_manual_unrolled VECPLAY_HAS_NEON y x a 0 unroll_factor = some y ∧
    saxpy_manual VECPLAY_HAS_NEON y x a 0 = some y := by
  refine ⟨?_, dot_variant_zero h0 VECPLAY_HAS_NEON VariantKind.Scalar x y,
    dot_variant_zero h0 VECPLAY_HAS_NEON VariantKind.Auto x y,
    dot_variant_zero h0 VECPLAY_HAS_NEON VariantKind.Manual x y,
    saxpy_variant_zero VECPLAY_HAS_NEON VariantKind.Scalar unroll_factor y x a,
    saxpy_variant_zero VECPLAY_HAS_NEON VariantKind.Auto unroll_factor y x a,
    saxpy_variant_zero VECPLAY_HAS_NEON VariantKind.Manual unroll_factor y x a,
    saxpy_variant_zero VECPLAY_HAS_NEON VariantKind.Manual 2 y x a⟩
  cases kernel with
  | Saxpy =>
    obtain ⟨_, _, yfin, r, _, _, hlen, hres, hsum⟩ :=
      run_benchmark_saxpy VECPLAY_HAS_NEON src time_seconds
        ⟨KernelKind.Saxpy, variant, 0, iterations, csv, unroll_factor⟩ rfl hit
    refine ⟨r, hres, ?_⟩
    have hnil : yfin = [] := List.length_eq_zero.mp hlen
    rw [hsum, hnil]
    rfl
  | Dot =>
    obtain ⟨x0, y0, d, r, _, _, _, hd, hres, hsum⟩ :=
      run_benchmark_dot VECPLAY_HAS_NEON src time_seconds
        ⟨KernelKind.Dot, variant, 0, iterations, csv, unroll_factor⟩ rfl hit
    refine ⟨r, hres, ?_⟩
    simp only at hd
    rw [dot_variant_zero h0 VECPLAY_HAS_NEON variant x0 y0] at hd
    obtain rfl : 0 = d := by simpa using hd
    rw [hsum]
    split_ifs <;> rfl

/-- Witness of C11: the manual dot product on the vector path with `n = 0` and 3 iterations,
over the rationals. -/
theorem degenerate_n_zero_witness :
    (run_benchmark true counter_source (1 : ℚ)
        ⟨KernelKind.Dot, VariantKind.Manual, 0, 3, false, 2⟩).map (fun r => r.checksum) =
      some 0 ∧
    ∃ r, run_benchmark true counter_source (1 : ℚ)
      ⟨KernelKind.Dot, VariantKind.Manual, 0, 3, false, 2⟩ = some r ∧ r.checksum = 0 :=
  ⟨by decide!, (degenerate_n_zero (by norm_num) true counter_source (1 : ℚ) KernelKind.Dot
    VariantKind.Manual 3 false 2 (by decide) [] [] 0).1⟩

/-- C12: for every kernel, variant, `n`, iteration count (a `std::size_t`), unroll factor and
build and every measured time, `run_benchmark` returns a result whose `time_seconds` is the
measured time `t` and whose `gflops_per_sec` is `(2.0 * n * iterations) / (t * 1e9)`, the
products and the quotient being those of `double` in this order; `t > 0` is not needed. -/
theorem run_benchmark_throughput [Add α] [Mul α] [Zero α] [OfScientific α] {β : Type} [Mul β]
    [Div β] [NatCast β] [OfScientific β] (VECPLAY_HAS_NEON : Bool) (src : RandomSource α)
    (t : β) (kernel : KernelKind) (variant : VariantKind) (n iterations : Nat) (csv : Bool)
    (unroll_factor : Int) (hit : iterations < 18446744073709551616) :
    ∃ r, run_benchmark VECPLAY_HAS_NEON src t
        ⟨kernel, variant, n, iterations, csv, unroll_factor⟩ = some r ∧
      r.time_seconds = t ∧
      r.gflops_per_sec = (2.0 * (n : β) * (iterations : β)) / (r.time_seconds * 1e9) := by
  obtain ⟨r, hres, ht, hg⟩ := run_benchmark_fields VECPLAY_HAS_NEON src t
    ⟨kernel, variant, n, iterations, csv, unroll_factor⟩ hit
  exact ⟨r, hres, ht, by rw [hg, ht]⟩

/-- Witness of C12: SAXPY, `n = 5`, 3 iterations, measured time `2`, over the rationals:
`2 * 5 * 3 / (2 * 1e9) = 3 / 200000000`. -/
theorem run_benchmark_throughput_witness :
    (run_benchmark true counter_source (2 : ℚ)
        ⟨KernelKind.Saxpy, VariantKind.Auto, 5, 3, false, 2⟩).map
      (fun r => r.gflops_per_sec) = some (3 / 200000000) ∧
    ∃ r, run_benchmark true counter_source (2 : ℚ)
        ⟨KernelKind.Saxpy, VariantKind.Auto, 5, 3, false, 2⟩ = some r ∧
      r.time_seconds = 2 ∧
      r.gflops_per_sec = (2.0 * ((5 : Nat) : ℚ) * ((3 : Nat) : ℚ)) / (r.time_seconds * 1e9) :=
  ⟨by decide!, run_benchmark_throughput true counter_source (2 : ℚ) KernelKind.Saxpy
    VariantKind.Auto 5 3 false 2 (by decide)⟩

/-- C19: for `kernel = Dot` with any variant, and for `kernel = Saxpy` with variant Scalar or
Auto, `run_benchmark` returns the same result, hence the same checksum, for every two values
of `config.unroll_factor`, the other fields being equal; and it returns when the iteration
count is a `std::size_t`. -/
theorem unroll_factor_ignored [Add α] [Mul α] [Zero α] [OfScientific α] {β : Type} [Mul β]
    [Div β] [NatCast β] [OfScientific β] (VECPLAY_HAS_NEON : Bool) (src : RandomSource α)
    (time_seconds : β) (kernel : KernelKind) (variant : VariantKind) (n iterations : Nat)
    (csv : Bool) (uf1 uf2 : Int)
    (h : kernel = KernelKind.Dot ∨ variant = VariantKind.Scalar ∨ variant = VariantKind.Auto) :
    run_benchmark VECPLAY_HAS_NEON src time_seconds ⟨kernel, variant, n, iterations, csv, uf1⟩ =
      run_benchmark VECPLAY_HAS_NEON src time_seconds
        ⟨kernel, variant, n, iterations, csv, uf2⟩ ∧
    (run_benchmark VECPLAY_HAS_NEON src time_seconds
        ⟨kernel, variant, n, iterations, csv, uf1⟩).map (fun r => r.checksum) =
      (run_benchmark VECPLAY_HAS_NEON src time_seconds
        ⟨kernel, variant, n, iterations, csv, uf2⟩).map (fun r => r.checksum) ∧
    (iterations < 18446744073709551616 →
      ∃ r, run_benchmark VECPLAY_HAS_NEON src time_seconds
        ⟨kernel, variant, n, iterations, csv, uf1⟩ = some r) := by
  have heq := run_benchmark_unroll_factor VECPLAY_HAS_NEON src time_seconds kernel variant n
    iterations csv uf1 uf2 h
  refine ⟨heq, by rw [heq], ?_⟩
  intro hit
  obtain ⟨r, hres, _⟩ := run_benchmark_fields VECPLAY_HAS_NEON src time_seconds
    ⟨kernel, variant, n, iterations, csv, uf1⟩ hit
  exact ⟨r, hres⟩

/-- Witness of C19: the manual dot product with `n = 5` and 3 iterations over the rationals,
unroll factors 8 and 3. -/
theorem unroll_factor_ignored_witness :
    (run_benchmark true counter_source (1 : ℚ)
        ⟨KernelKind.Dot, VariantKind.Manual, 5, 3, false, 8⟩).map (fun r => r.checksum) =
      some (5 / 4) ∧
    (run_benchmark true counter_source (1 : ℚ)
        ⟨KernelKind.Dot, VariantKind.Manual, 5, 3, false, 8⟩).map (fun r => r.checksum) =
      (run_benchmark true counter_source (1 : ℚ)
        ⟨KernelKind.Dot, VariantKind.Manual, 5, 3, false, 3⟩).map (fun r => r.checksum) :=
  ⟨by decide!, (unroll_factor_ignored true counter_source (1 : ℚ) KernelKind.Dot
    VariantKind.Manual 5 3 false 8 3 (Or.inl rfl)).2.1⟩

/-- C16, evaluated at `config.iterations = 2147483649` (`2 ^ 31 + 1`) with `kernel = Saxpy`,
`variant = Scalar`, `n = 1`, over the rationals with `x = [1/2]`, `y = [3/4]`: the timed loop,
whose `int` counter wraps after `2 ^ 31` passes, ends in the state that `2147483648` passes of
the dispatch leave, `y = [3/4 + 2147483648 * 5/8]`, which is not the state that `2147483649`
passes leave, `y = [3/4 + 2147483649 * 5/8]`. -/
theorem run_benchmark_loop_int_counter :
    trip_count 2147483649 = 2147483648 ∧
    run_benchmark_loop true ⟨KernelKind.Saxpy, VariantKind.Scalar, 1, 2147483649, false, 2⟩
        [1 / 2] (1.25 : ℚ) (2147483649 + 1) 0 ([3 / 4], 0) =
      some ([3 / 4 + 2147483648 * (5 / 8)], 0) ∧
    successive (run_benchmark_dispatch true
        ⟨KernelKind.Saxpy, VariantKind.Scalar, 1, 2147483649, false, 2⟩ [1 / 2] (1.25 : ℚ))
        2147483649 ([3 / 4], 0) =
      some ([3 / 4 + 2147483649 * (5 / 8)], 0) ∧
    (3 / 4 + 2147483648 * (5 / 8) : ℚ) ≠ 3 / 4 + 2147483649 * (5 / 8) := by
  have htc : trip_count 2147483649 = 2147483648 := by decide
  have hsucc : ∀ k : Nat, successive (run_benchmark_dispatch true
        ⟨KernelKind.Saxpy, VariantKind.Scalar, 1, 2147483649, false, 2⟩ [1 / 2] (1.25 : ℚ))
        k ([3 / 4], 0) = some ([3 / 4 + (k : ℚ) * (5 / 8)], 0) := by
    intro k
    rw [successive_dispatch_saxpy true
      ⟨KernelKind.Saxpy, VariantKind.Scalar, 1, 2147483649, false, 2⟩ rfl]
    simp only [saxpy_variant]
    rw [successive_saxpy_scalar_example k]
    rfl
  refine ⟨htc, ?_, ?_, by norm_num⟩
  · have h := run_benchmark_loop_eq true
      ⟨KernelKind.Saxpy, VariantKind.Scalar, 1, 2147483649, false, 2⟩ [1 / 2] (1.25 : ℚ)
      (by decide) ([3 / 4], 0)
    simp only [htc] at h
    rw [h, hsucc 2147483648]
    norm_num
  · rw [hsucc 2147483649]
    norm_num

/-- C20: the buffers that `run_benchmark` generates depend on `n` (and the random source)
alone: `x[i]` is sample `2 * i` and `y[i]` sample `2 * i + 1`, for every `i < n`, of the one
stream of the engine seeded with 42; for `n ≤ m` the buffers generated for `n` are the
length-`n` prefixes of the buffers generated for `m`; and a run, whatever its kernel, variant,
iteration count (a `std::size_t`) and unroll factor, works on the buffers generated for its
`config.n`. -/
theorem generated_buffers_interleaved [Add α] [Mul α] [Zero α] [OfScientific α] {β : Type}
    [Mul β] [Div β] [NatCast β] [OfScientific β] (src : RandomSource α) (n m : Nat)
    (h : n ≤ m) :
    generated_buffers src n =
      some ((List.range n).map (fun i => sample src (2 * i)),
        (List.range n).map (fun i => sample src (2 * i + 1))) ∧
    (∃ xm ym, generated_buffers src m = some (xm, ym) ∧
      generated_buffers src n = some (xm.take n, ym.take n)) ∧
    ∀ (VECPLAY_HAS_NEON : Bool) (time_seconds : β) (config : BenchConfig),
      config.iterations < 18446744073709551616 →
      run_benchmark VECPLAY_HAS_NEON src time_seconds config =
        (generated_buffers src config.n).bind fun xy =>
          (successive (run_benchmark_dispatch VECPLAY_HAS_NEON config xy.1 1.25)
            (trip_count config.iterations) (xy.2, 0)).map fun st =>
            ⟨time_seconds,
              if config.kernel = KernelKind.Saxpy then st.1.foldl (fun c val => c + val) 0
              else st.2,
              2.0 * (config.n : β) * (config.iterations : β) / (time_seconds * 1e9)⟩ := by
  refine ⟨generated_buffers_eq src n, ⟨_, _, generated_buffers_eq src m, ?_⟩, ?_⟩
  · rw [generated_buffers_eq src n, take_map_range _ n m h, take_map_range _ n m h]
  · intro VECPLAY_HAS_NEON time_seconds config hit
    exact run_benchmark_eq VECPLAY_HAS_NEON src time_seconds config hit

/-- Witness of C20: `n = 2` and `m = 5` with the source `counter_source`. -/
theorem generated_buffers_interleaved_witness :
    generated_buffers counter_source 5 =
      some ([1 / 2, 1, 1 / 4, 3 / 4, 0], [3 / 4, 0, 1 / 2, 1, 1 / 4]) ∧
    generated_buffers counter_source 2 = some ([1 / 2, 1], [3 / 4, 0]) ∧
    ∃ xm ym, generated_buffers counter_source 5 = some (xm, ym) ∧
      generated_buffers counter_source 2 = some (xm.take 2, ym.take 2) :=
  ⟨by decide!, by decide!,
    (@generated_buffers_interleaved ℚ _ _ _ _ ℚ _ _ _ _ counter_source 2 5 (by decide)).2.1⟩

/-- C17: on the vector path, for `U` in `{1, 2, 4, 8}` and buffers of exactly `n` elements, the
manual kernels never index out of bounds. For `saxpy_manual_impl<U>`:
`limit = n / (U * 4) * (U * 4)` is at most `n`, a multiple of `U * 4`, and `n - limit < U * 4`;
every 4-lane access at `base = i + u * 4` (`i < limit` a multiple of `U * 4`, `u < U`) has
`base + 3 < n`; the main loop runs to its end and ends with `i = limit`, leaving the indices
from `limit` on untouched; the cleanup loop, started there, runs to its end, rewrites the
indices `limit, ..., n - 1` and no other. For `dot_manual`: `n_vec = n - n % 4` is at most
`n`, a multiple of 4, `n - n_vec < 4`, every 4-lane load at a multiple `i < n_vec` of 4 has
`i + 3 < n`; the main loop ends with `i = n_vec` and the cleanup loop adds the products of the
indices `n_vec, ..., n - 1`. (An access outside a buffer makes a kernel of the embedding
return `none`; both return.) -/
theorem manual_kernels_in_bounds [Add α] [Mul α] [Zero α] (x y : List α) (a : α) (n U : Nat)
    (hU : U = 1 ∨ U = 2 ∨ U = 4 ∨ U = 8) (hx : x.length = n) (hy : y.length = n) :
    (n / (U * 4) * (U * 4) ≤ n ∧ (U * 4) ∣ n / (U * 4) * (U * 4) ∧
      n - n / (U * 4) * (U * 4) < U * 4) ∧
    (∀ i u, i < n / (U * 4) * (U * 4) → (U * 4) ∣ i → u < U → i + u * 4 + 3 < n) ∧
    (∃ y1 y', saxpy_manual_impl_main x (vdupq_n_f32 a) U 4 (U * 4) (n / (U * 4) * (U * 4))
          (n + 1) 0 y = some (n / (U * 4) * (U * 4), y1) ∧
        saxpy_manual_impl_cleanup x a n (n + 1) (n / (U * 4) * (U * 4)) y1 = some y' ∧
        saxpy_manual_impl true U y x a n = some y' ∧ y1.length = n ∧ y'.length = n ∧
        (∀ j, n / (U * 4) * (U * 4) ≤ j → y1[j]? = y[j]?) ∧
        (∀ j, j < n / (U * 4) * (U * 4) ∨ n ≤ j → y'[j]? = y1[j]?) ∧
        (∀ j, n / (U * 4) * (U * 4) ≤ j → j < n → y'[j]? = saxpy_elem a x y1 j)) ∧
    (n - n % 4 ≤ n ∧ 4 ∣ n - n % 4 ∧ n - (n - n % 4) < 4) ∧
    (∀ i, i < n - n % 4 → 4 ∣ i → i + 3 < n) ∧
    (∃ sum_vec acc, dot_manual_main x y 4 (n - n % 4) (n + 1) 0 (vdupq_n_f32 0) =
          some (n - n % 4, sum_vec) ∧
        dot_manual_cleanup x y n (n + 1) (n - n % 4)
            ((sum_vec.lane0 + sum_vec.lane2) + (sum_vec.lane1 + sum_vec.lane3)) = some acc ∧
        dot_manual true x y n = some acc ∧
        acc = (((List.zipWith (fun u v => u * v) x y).take n).drop (n - n % 4)).foldl
          (fun s p => s + p)
          ((sum_vec.lane0 + sum_vec.lane2) + (sum_vec.lane1 + sum_vec.lane3))) := by
  have hUpos : 0 < U := by omega
  have hlim : n / (U * 4) * (U * 4) ≤ n := Nat.div_mul_le_self n (U * 4)
  have hdvd : (U * 4) ∣ n / (U * 4) * (U * 4) := Dvd.intro_left _ rfl
  have hrem : n - n / (U * 4) * (U * 4) < U * 4 := by
    have h1 := Nat.div_add_mod n (U * 4)
    have h2 := Nat.mod_lt n (show 0 < U * 4 by omega)
    rw [Nat.mul_comm] at h1
    omega
  refine ⟨⟨hlim, hdvd, hrem⟩, ?_, ?_, ⟨by omega, ⟨n / 4, by omega⟩, by omega⟩, ?_, ?_⟩
  · intro i u hi hdi hu
    obtain ⟨q, hq⟩ := hdvd
    obtain ⟨p, hp⟩ := hdi
    have hpq : p < q := by
      by_contra hcon
      have : q ≤ p := by omega
      have := Nat.mul_le_mul_left (U * 4) this
      omega
    have : (U * 4) * (p + 1) ≤ (U * 4) * q := Nat.mul_le_mul_left _ hpq
    rw [Nat.mul_add, Nat.mul_one] at this
    omega
  · generalize hl : n / (U * 4) * (U * 4) = limit at hlim hdvd hrem
    obtain ⟨y1, hmain, hlen1, hval1⟩ :=
      saxpy_manual_impl_main_spec x a U hUpos limit (by omega) (n + 1) 0 y (by omega)
        ⟨n / (U * 4), by omega⟩ (by omega)
    obtain ⟨y', hrun, hlen, hval⟩ :=
      saxpy_scalar_loop_spec x a n (by omega) (n + 1) limit y1 (by omega) (by omega)
    rw [← saxpy_manual_impl_cleanup_eq] at hrun
    refine ⟨y1, y', hmain, hrun, ?_, by omega, by omega, ?_, ?_, ?_⟩
    · simp only [saxpy_manual_impl, if_true, hl, hmain, Option.some_bind, Option.bind_eq_bind]
      exact hrun
    · intro j hj
      rw [hval1 j, if_neg (by omega)]
    · intro j hj
      rw [hval j, if_neg (by omega)]
    · intro j h1 h2
      rw [hval j, if_pos ⟨h1, h2⟩]
  · intro i hi hdi
    omega
  · have hk : 0 + (n / 4) * 4 = n - n % 4 := by omega
    obtain ⟨s', hmain⟩ := dot_manual_main_some x y (n - n % 4) (by omega) (by omega)
      (n + 1) 0 (vdupq_n_f32 (0 : α)) ⟨n / 4, hk⟩ (by omega)
    have hclean := dot_scalar_loop_spec x y n (by omega) (by omega) (n + 1) (n - n % 4)
      ((s'.lane0 + s'.lane2) + (s'.lane1 + s'.lane3)) (by omega)
    rw [← dot_manual_cleanup_eq] at hclean
    refine ⟨s', _, hmain, hclean, ?_, rfl⟩
    simp only [dot_manual, if_true, hmain, Option.some_bind, Option.bind_eq_bind,
      vget_low_f32, vget_high_f32, vadd_f32, vget_lane_f32, if_true, if_false, one_ne_zero]
    exact hclean

/-- Witness of C17: `n = 11`, `U = 2` over the integers: `limit = 8`, and the kernel
returns. -/
theorem manual_kernels_in_bounds_witness :
    saxpy_manual_impl true 2 [0, 1, 2, 3, 4, 5, 6, 7, 8, 9, 10]
        [1, 1, 1, 1, 1, 1, 1, 1, 1, 1, 1] (3 : Int) 11 =
      some [3, 4, 5, 6, 7, 8, 9, 10, 11, 12, 13] ∧
    (11 / (2 * 4) * (2 * 4) ≤ 11 ∧ (2 * 4) ∣ 11 / (2 * 4) * (2 * 4) ∧
      11 - 11 / (2 * 4) * (2 * 4) < 2 * 4) :=
  ⟨by decide, (manual_kernels_in_bounds [1, 1, 1, 1, 1, 1, 1, 1, 1, 1, 1]
    [0, 1, 2, 3, 4, 5, 6, 7, 8, 9, 10] (3 : Int) 11 2 (by decide) (by decide) (by decide)).1⟩

/-- C18: on the vector path, with `m = n - n % 4` and `s_j` (`lane_sum x y m j`) the
left-to-right sum, starting from `0`, of the products `x[i] * y[i]` over the indices `i < m`
with `i mod 4 = j`, `dot_manual(x, y, n)` returns
`(((s_0 + s_2) + (s_1 + s_3)) + x[m]*y[m]) + ... + x[n-1]*y[n-1]`, the remainder products
added one by one in index order; no law of arithmetic is assumed. -/
theorem dot_manual_association [Add α] [Mul α] [Zero α] (x y : List α) (n : Nat)
    (hx : n ≤ x.length) (hy : n ≤ y.length) :
    dot_manual true x y n =
      some ((((List.zipWith (fun u v => u * v) x y).take n).drop (n - n % 4)).foldl
        (fun s p => s + p)
        ((lane_sum x y (n - n % 4) 0 + lane_sum x y (n - n % 4) 2) +
          (lane_sum x y (n - n % 4) 1 + lane_sum x y (n - n % 4) 3))) := by
  have hm : n - n % 4 = 4 * (n / 4) := by omega
  have hz : ∀ j, lane_sum x y (4 * 0) j = (0 : α) := by
    intro j
    simp [lane_sum, lane_products]
  obtain ⟨s', hmain, hs0, hs1, hs2, hs3⟩ := dot_manual_main_lanes x y (n / 4) (by omega)
    (by omega) (n + 1) 0 (vdupq_n_f32 (0 : α)) (by omega) (by omega) (hz 0).symm (hz 1).symm
    (hz 2).symm (hz 3).symm
  have hclean := dot_scalar_loop_spec x y n hx hy (n + 1) (n - n % 4)
    ((s'.lane0 + s'.lane2) + (s'.lane1 + s'.lane3)) (by omega)
  rw [hm] at hclean ⊢
  simp only [Nat.mul_zero] at hmain
  simp only [dot_manual, if_true, hm, hmain, Option.some_bind, Option.bind_eq_bind,
    dot_manual_cleanup_eq, vget_low_f32, vget_high_f32, vadd_f32, vget_lane_f32,
    if_true, if_false, one_ne_zero]
  rw [hclean, hs0, hs1, hs2, hs3]

/-- Witness of C18: `n = 11` over the integers, `x = [1, ..., 11]`, `y` all ones: the lanes
are `1 + 5`, `2 + 6`, `3 + 7`, `4 + 8` and the remainder is `9, 10, 11`. -/
theorem dot_manual_association_witness :
    lane_sum [1, 2, 3, 4, 5, 6, 7, 8, 9, 10, 11] [1, 1, 1, 1, 1, 1, 1, 1, 1, 1, (1 : Int)] 8 1 =
      (0 + 2 * 1) + 6 * 1 ∧
    dot_manual true [1, 2, 3, 4, 5, 6, 7, 8, 9, 10, 11]
        [1, 1, 1, 1, 1, 1, 1, 1, 1, 1, (1 : Int)] 11 =
      some ((([9, 10, 11] : List Int).foldl (fun s p => s + p)
        ((lane_sum [1, 2, 3, 4, 5, 6, 7, 8, 9, 10, 11] [1, 1, 1, 1, 1, 1, 1, 1, 1, 1, 1] 8 0 +
            lane_sum [1, 2, 3, 4, 5, 6, 7, 8, 9, 10, 11] [1, 1, 1, 1, 1, 1, 1, 1, 1, 1, 1] 8 2) +
          (lane_sum [1, 2, 3, 4, 5, 6, 7, 8, 9, 10, 11] [1, 1, 1, 1, 1, 1, 1, 1, 1, 1, 1] 8 1 +
            lane_sum [1, 2, 3, 4, 5, 6, 7, 8, 9, 10, 11] [1, 1, 1, 1, 1, 1, 1, 1, 1, 1, 1] 8
              3)))) :=
  ⟨by decide, dot_manual_association [1, 2, 3, 4, 5, 6, 7, 8, 9, 10, 11]
    [1, 1, 1, 1, 1, 1, 1, 1, 1, 1, (1 : Int)] 11 (by decide) (by decide)⟩

end Claims

end vecplay
